import Mathlib

/-!
Verification of the core editing model of the fero terminal text editor.

The Rust sources are shallowly embedded: text lines are lists of
characters (Rust String byte indices coincide with character indices for
the operations modelled here, which the source applies uniformly), a Rust
Vec is a Lean List with push appending at the back, pop taking the last
element and remove dropping by index, and the crossterm key types are
small inductive types.  Fallible file output is threaded through as an
explicit Boolean outcome.  Fields of the application state that only the
unmodelled file-system code touches (the working directory and the
explorer listing) are omitted; no modelled operation reads or writes
them.
-/

namespace Fero

/-- One text line, as stored in Buffer.lines (Rust String, char level). -/
abbrev Line := List Char

/-- Insert an element at an index of a list; models Rust insert on String
and Vec (in-bounds in all modelled uses). -/
def insertAt (l : List α) (n : Nat) (a : α) : List α :=
  l.take n ++ a :: l.drop n

/-- Remove the element at an index; models Rust String.remove. -/
def removeAt (l : List α) (n : Nat) : List α :=
  l.take n ++ l.drop (n + 1)

/-- Key codes used by the program (crossterm KeyCode); the f constructor
stands for the function keys and every other code the handlers ignore. -/
inductive KeyCode where
  | char (c : Char)
  | enter
  | backspace
  | tab
  | left
  | right
  | up
  | down
  | delete
  | esc
  | f (n : Nat)
deriving DecidableEq, Repr

/-- Modifier set of a key event (crossterm KeyModifiers bitflags,
restricted to the three flags the program inspects). -/
structure KeyMods where
  ctrl : Bool
  shift : Bool
  alt : Bool
deriving DecidableEq, Repr

/-- The empty modifier set. -/
def KeyMods.none : KeyMods := ⟨false, false, false⟩

/-- src/core/state.rs KeyCombo: a key code plus its modifier set. -/
structure KeyCombo where
  code : KeyCode
  modifiers : KeyMods
deriving DecidableEq, Repr

/-- src/core/state.rs KeybindAction: the closed set of bindable actions. -/
inductive KeybindAction where
  | menu | save | undo | redo | newTab | closeTab | nextTab | prevTab
  | selectAll | copy | cut | paste | find | goToLine | wipeBuffer
  | resetToDefault
deriving DecidableEq, Repr

/-- src/core/state.rs KeybindAction::from_index. -/
def KeybindAction.fromIndex : Nat → Option KeybindAction
  | 0 => some .menu
  | 1 => some .save
  | 2 => some .undo
  | 3 => some .redo
  | 4 => some .newTab
  | 5 => some .closeTab
  | 6 => some .nextTab
  | 7 => some .prevTab
  | 8 => some .selectAll
  | 9 => some .copy
  | 10 => some .cut
  | 11 => some .paste
  | 12 => some .find
  | 13 => some .goToLine
  | 14 => some .wipeBuffer
  | 15 => some .resetToDefault
  | _ => none

/-- src/core/state.rs KeybindAction::to_str. -/
def KeybindAction.toStr : KeybindAction → String
  | .menu => "Menu"
  | .save => "Save"
  | .undo => "Undo"
  | .redo => "Redo"
  | .newTab => "NewTab"
  | .closeTab => "CloseTab"
  | .nextTab => "NextTab"
  | .prevTab => "PrevTab"
  | .selectAll => "SelectAll"
  | .copy => "Copy"
  | .cut => "Cut"
  | .paste => "Paste"
  | .find => "Find"
  | .goToLine => "GoToLine"
  | .wipeBuffer => "WipeBuffer"
  | .resetToDefault => "ResetToDefault"

/-- The custom keybind table.  The Rust std HashMap is modelled by an
association list whose observable behaviour matches it: lookup returns
the entry for a key, insert overwrites any previous entry for the key. -/
def BindTable := List (KeyCombo × KeybindAction)

instance : DecidableEq BindTable := inferInstanceAs (DecidableEq (List _))

/-- HashMap::get on the bind table. -/
def bindsGet (t : BindTable) (k : KeyCombo) : Option KeybindAction :=
  (t.find? (fun p => p.1 = k)).map (·.2)

/-- HashMap::insert on the bind table (overwrites the key). -/
def bindsInsert (t : BindTable) (k : KeyCombo) (a : KeybindAction) : BindTable :=
  (k, a) :: t.filter (fun p => ¬ (p.1 = k))

/-- src/core/state.rs KeybindState. -/
structure KeybindState where
  in_rebind_mode : Bool
  selected_action : Nat
  waiting_for_key : Bool
  pending_action : Option Nat
  custom_binds : BindTable
  scroll_offset : Nat
  confirming_reset : Bool
deriving DecidableEq

/-- src/core/state.rs KeybindState::default. -/
def KeybindState.default : KeybindState :=
  ⟨false, 0, false, none, [], 0, false⟩

/-- src/core/state.rs ConfirmType. -/
inductive ConfirmType where
  | closeTab
deriving DecidableEq, Repr

/-- src/core/state.rs ConfirmChoice. -/
inductive ConfirmChoice where
  | no | yes | cancel
deriving DecidableEq, Repr

/-- src/core/state.rs PromptType. -/
inductive PromptType where
  | saveAs | find | replace | goToLine
deriving DecidableEq, Repr

/-- src/core/state.rs Mode. -/
inductive Mode where
  | editing | menu | explorer | settings | help | colorEditor
  | confirmWipe | keyRebind
  | confirm (t : ConfirmType)
deriving DecidableEq, Repr

/-- src/core/state.rs Selection: anchor (start) and head (end). -/
structure Selection where
  start_x : Nat
  start_y : Nat
  end_x : Nat
  end_y : Nat
deriving DecidableEq, Repr

/-- src/core/state.rs Selection::new. -/
def Selection.new (x y : Nat) : Selection := ⟨x, y, x, y⟩

/-- src/core/state.rs Selection::normalized: endpoints ordered by
(line, then column), returned as (sx, sy, ex, ey). -/
def Selection.normalized (s : Selection) : Nat × Nat × Nat × Nat :=
  if s.start_y < s.end_y ∨ (s.start_y = s.end_y ∧ s.start_x ≤ s.end_x) then
    (s.start_x, s.start_y, s.end_x, s.end_y)
  else
    (s.end_x, s.end_y, s.start_x, s.start_y)

/-- src/core/state.rs UndoState: snapshot of lines and cursor. -/
structure UndoState where
  lines : List Line
  cursor_x : Nat
  cursor_y : Nat
deriving DecidableEq, Repr

/-- src/core/state.rs Buffer. -/
structure Buffer where
  lines : List Line
  cursor_x : Nat
  cursor_y : Nat
  viewport_offset_y : Nat
  viewport_offset_x : Nat
  filename : String
  file_path : Option String
  modified : Bool
deriving DecidableEq, Repr

/-- src/core/state.rs Buffer::new. -/
def Buffer.new (filename : String) : Buffer :=
  { lines := [[]]
    cursor_x := 0
    cursor_y := 0
    viewport_offset_y := 0
    viewport_offset_x := 0
    filename := filename
    file_path := none
    modified := false }

/-- The current line of a buffer (Rust indexes lines[cursor_y]; total via
a default, which modelled operations only hit outside the invariant the
program maintains). -/
def Buffer.curLine (buf : Buffer) : Line :=
  buf.lines.getD buf.cursor_y []

/-- src/core/state.rs ColorEntry: a named hex string being edited. -/
structure ColorEntry where
  name : String
  current_hex : Line
deriving DecidableEq, Repr

/-- src/core/state.rs PaletteConfig: the 25 named hex colors.  Fields
whose source name begins with the word syntax are spelled stx here
(stx_keyword is syntax_keyword and so on); the string keys used for
matching keep the original source spelling. -/
structure PaletteConfig where
  ui_background : Line
  ui_foreground : Line
  ui_border : Line
  status_bar_bg : Line
  status_bar_fg : Line
  header_bg : Line
  header_fg : Line
  editor_background : Line
  editor_foreground : Line
  line_number_bg : Line
  line_number_fg : Line
  cursor : Line
  selection_bg : Line
  selection_fg : Line
  stx_keyword : Line
  stx_string : Line
  stx_comment : Line
  stx_function : Line
  stx_type : Line
  stx_constant : Line
  accent_primary : Line
  accent_secondary : Line
  match_highlight : Line
  error : Line
  warning : Line
deriving DecidableEq, Repr

/-- src/core/state.rs PaletteConfig::default. -/
def PaletteConfig.defaultConfig : PaletteConfig where
  ui_background := "#1E1E1E".toList
  ui_foreground := "#D4D4D4".toList
  ui_border := "#3A3A3A".toList
  status_bar_bg := "#007ACC".toList
  status_bar_fg := "#FFFFFF".toList
  header_bg := "#3C3C3C".toList
  header_fg := "#FFFFFF".toList
  editor_background := "#121212".toList
  editor_foreground := "#D4D4D4".toList
  line_number_bg := "#121212".toList
  line_number_fg := "#858585".toList
  cursor := "#FFFFFF".toList
  selection_bg := "#264F78".toList
  selection_fg := "#FFFFFF".toList
  stx_keyword := "#C586C0".toList
  stx_string := "#CE9178".toList
  stx_comment := "#6A9955".toList
  stx_function := "#DCDCAA".toList
  stx_type := "#4EC9B0".toList
  stx_constant := "#B5CEA8".toList
  accent_primary := "#007ACC".toList
  accent_secondary := "#4D4D4D".toList
  match_highlight := "#515C6A".toList
  error := "#F44747".toList
  warning := "#FFD700".toList

/-- crossterm Color, restricted to the Rgb constructor, the only one
this program ever builds (Palette::hex_to_color). -/
structure Color where
  r : Nat
  g : Nat
  b : Nat
deriving DecidableEq, Repr

/-- Value of one hexadecimal digit character, as accepted by
u8::from_str_radix with radix 16. -/
def hexDigitVal (c : Char) : Option Nat :=
  if '0' ≤ c ∧ c ≤ '9' then some (c.toNat - 48)
  else if 'a' ≤ c ∧ c ≤ 'f' then some (c.toNat - 87)
  else if 'A' ≤ c ∧ c ≤ 'F' then some (c.toNat - 55)
  else none

/-- u8::from_str_radix(s, 16) on a two-character slice. -/
def hexPairVal (c1 c2 : Char) : Option Nat := do
  let d1 ← hexDigitVal c1
  let d2 ← hexDigitVal c2
  pure (16 * d1 + d2)

/-- src/core/state.rs Palette::hex_to_color: a 7-character string
starting with the hash sign parses into an Rgb color; anything else,
including a parse failure of a component, yields black. -/
def hexToColor (hex : Line) : Color :=
  match hex with
  | ['#', r1, r2, g1, g2, b1, b2] =>
    match hexPairVal r1 r2, hexPairVal g1 g2, hexPairVal b1 b2 with
    | some r, some g, some b => ⟨r, g, b⟩
    | _, _, _ => ⟨0, 0, 0⟩
  | _ => ⟨0, 0, 0⟩

/-- Uppercase hexadecimal digit character, as printed by the 02X
format used in Palette::to_hex. -/
def toHexDigit (n : Nat) : Char :=
  if n < 10 then Char.ofNat (48 + n) else Char.ofNat (55 + n)

/-- Two-digit uppercase hexadecimal rendering of a byte. -/
def byteToHex (n : Nat) : Line :=
  [toHexDigit (n / 16 % 16), toHexDigit (n % 16)]

/-- src/core/state.rs Palette::to_hex on an Rgb color. -/
def colorToHex (c : Color) : Line :=
  '#' :: byteToHex c.r ++ byteToHex c.g ++ byteToHex c.b

/-- src/core/state.rs Palette: the parsed colors. -/
structure Palette where
  ui_background : Color
  ui_foreground : Color
  ui_border : Color
  status_bar_bg : Color
  status_bar_fg : Color
  header_bg : Color
  header_fg : Color
  editor_background : Color
  editor_foreground : Color
  line_number_bg : Color
  line_number_fg : Color
  cursor : Color
  selection_bg : Color
  selection_fg : Color
  stx_keyword : Color
  stx_string : Color
  stx_comment : Color
  stx_function : Color
  stx_type : Color
  stx_constant : Color
  accent_primary : Color
  accent_secondary : Color
  match_highlight : Color
  error : Color
  warning : Color
deriving DecidableEq, Repr

/-- src/core/state.rs Palette::from_config. -/
def Palette.fromConfig (cfg : PaletteConfig) : Palette where
  ui_background := hexToColor cfg.ui_background
  ui_foreground := hexToColor cfg.ui_foreground
  ui_border := hexToColor cfg.ui_border
  status_bar_bg := hexToColor cfg.status_bar_bg
  status_bar_fg := hexToColor cfg.status_bar_fg
  header_bg := hexToColor cfg.header_bg
  header_fg := hexToColor cfg.header_fg
  editor_background := hexToColor cfg.editor_background
  editor_foreground := hexToColor cfg.editor_foreground
  line_number_bg := hexToColor cfg.line_number_bg
  line_number_fg := hexToColor cfg.line_number_fg
  cursor := hexToColor cfg.cursor
  selection_bg := hexToColor cfg.selection_bg
  selection_fg := hexToColor cfg.selection_fg
  stx_keyword := hexToColor cfg.stx_keyword
  stx_string := hexToColor cfg.stx_string
  stx_comment := hexToColor cfg.stx_comment
  stx_function := hexToColor cfg.stx_function
  stx_type := hexToColor cfg.stx_type
  stx_constant := hexToColor cfg.stx_constant
  accent_primary := hexToColor cfg.accent_primary
  accent_secondary := hexToColor cfg.accent_secondary
  match_highlight := hexToColor cfg.match_highlight
  error := hexToColor cfg.error
  warning := hexToColor cfg.warning

/-- src/core/state.rs Palette::default. -/
def Palette.defaultPalette : Palette :=
  Palette.fromConfig PaletteConfig.defaultConfig

/-- src/core/state.rs Palette::to_config. -/
def Palette.toConfig (p : Palette) : PaletteConfig where
  ui_background := colorToHex p.ui_background
  ui_foreground := colorToHex p.ui_foreground
  ui_border := colorToHex p.ui_border
  status_bar_bg := colorToHex p.status_bar_bg
  status_bar_fg := colorToHex p.status_bar_fg
  header_bg := colorToHex p.header_bg
  header_fg := colorToHex p.header_fg
  editor_background := colorToHex p.editor_background
  editor_foreground := colorToHex p.editor_foreground
  line_number_bg := colorToHex p.line_number_bg
  line_number_fg := colorToHex p.line_number_fg
  cursor := colorToHex p.cursor
  selection_bg := colorToHex p.selection_bg
  selection_fg := colorToHex p.selection_fg
  stx_keyword := colorToHex p.stx_keyword
  stx_string := colorToHex p.stx_string
  stx_comment := colorToHex p.stx_comment
  stx_function := colorToHex p.stx_function
  stx_type := colorToHex p.stx_type
  stx_constant := colorToHex p.stx_constant
  accent_primary := colorToHex p.accent_primary
  accent_secondary := colorToHex p.accent_secondary
  match_highlight := colorToHex p.match_highlight
  error := colorToHex p.error
  warning := colorToHex p.warning

/-- The well-formedness test of src/core/editor.rs
parse_palette_from_entries: exactly 7 characters and a leading hash. -/
def isWellFormedHex (hex : Line) : Bool :=
  hex.length = 7 && hex.head? = some '#'

/-- Body of the entry loop of src/core/editor.rs
parse_palette_from_entries: a well-formed entry overwrites the config
channel matching its name; names outside the 25 known channels and
ill-formed entries leave the config untouched. -/
def applyEntry (config : PaletteConfig) (e : ColorEntry) : PaletteConfig :=
  if isWellFormedHex e.current_hex then
    match e.name with
    | "ui_background" => { config with ui_background := e.current_hex }
    | "ui_foreground" => { config with ui_foreground := e.current_hex }
    | "ui_border" => { config with ui_border := e.current_hex }
    | "status_bar_bg" => { config with status_bar_bg := e.current_hex }
    | "status_bar_fg" => { config with status_bar_fg := e.current_hex }
    | "header_bg" => { config with header_bg := e.current_hex }
    | "header_fg" => { config with header_fg := e.current_hex }
    | "editor_background" => { config with editor_background := e.current_hex }
    | "editor_foreground" => { config with editor_foreground := e.current_hex }
    | "line_number_bg" => { config with line_number_bg := e.current_hex }
    | "line_number_fg" => { config with line_number_fg := e.current_hex }
    | "cursor" => { config with cursor := e.current_hex }
    | "selection_bg" => { config with selection_bg := e.current_hex }
    | "selection_fg" => { config with selection_fg := e.current_hex }
    | "syntax_keyword" => { config with stx_keyword := e.current_hex }
    | "syntax_string" => { config with stx_string := e.current_hex }
    | "syntax_comment" => { config with stx_comment := e.current_hex }
    | "syntax_function" => { config with stx_function := e.current_hex }
    | "syntax_type" => { config with stx_type := e.current_hex }
    | "syntax_constant" => { config with stx_constant := e.current_hex }
    | "accent_primary" => { config with accent_primary := e.current_hex }
    | "accent_secondary" => { config with accent_secondary := e.current_hex }
    | "match_highlight" => { config with match_highlight := e.current_hex }
    | "error" => { config with error := e.current_hex }
    | "warning" => { config with warning := e.current_hex }
    | _ => config
  else config

/-- src/core/editor.rs parse_palette_from_entries: fold the entries
over the DEFAULT config, then parse the result; always returns Ok. -/
def parsePaletteFromEntries (entries : List ColorEntry) : Except Unit Palette :=
  .ok (Palette.fromConfig (entries.foldl applyEntry PaletteConfig.defaultConfig))

/-- src/core/state.rs AppState::populate_color_entries: the entry list
shown by the color editor, derived from the current palette. -/
def populateColorEntries (p : Palette) : List ColorEntry :=
  let config := p.toConfig
  [
    ⟨"ui_background", config.ui_background⟩,
    ⟨"ui_foreground", config.ui_foreground⟩,
    ⟨"ui_border", config.ui_border⟩,
    ⟨"status_bar_bg", config.status_bar_bg⟩,
    ⟨"status_bar_fg", config.status_bar_fg⟩,
    ⟨"header_bg", config.header_bg⟩,
    ⟨"header_fg", config.header_fg⟩,
    ⟨"editor_background", config.editor_background⟩,
    ⟨"editor_foreground", config.editor_foreground⟩,
    ⟨"line_number_bg", config.line_number_bg⟩,
    ⟨"line_number_fg", config.line_number_fg⟩,
    ⟨"cursor", config.cursor⟩,
    ⟨"selection_bg", config.selection_bg⟩,
    ⟨"selection_fg", config.selection_fg⟩,
    ⟨"syntax_keyword", config.stx_keyword⟩,
    ⟨"syntax_string", config.stx_string⟩,
    ⟨"syntax_comment", config.stx_comment⟩,
    ⟨"syntax_function", config.stx_function⟩,
    ⟨"syntax_type", config.stx_type⟩,
    ⟨"syntax_constant", config.stx_constant⟩,
    ⟨"accent_primary", config.accent_primary⟩,
    ⟨"accent_secondary", config.accent_secondary⟩,
    ⟨"match_highlight", config.match_highlight⟩,
    ⟨"error", config.error⟩,
    ⟨"warning", config.warning⟩
  ]


/-- src/core/state.rs Config (durable configuration).  stx_highlight is
the field spelled syntax_highlight in the source. -/
structure Config where
  show_line_numbers : Bool
  show_status_bar : Bool
  show_header : Bool
  auto_save : Bool
  tab_size : Nat
  palette : PaletteConfig
  stx_highlight : Bool
  show_tab_bar : Bool
  custom_keybinds : List (String × String)
deriving DecidableEq

/-- src/core/state.rs AppState.  The current_dir, explorer_files,
explorer_idx and explorer_offset fields are omitted: only the unmodelled
file-system handlers touch them. -/
structure AppState where
  buffers : List Buffer
  active_buffer : Nat
  input_mode : Bool
  input_buffer : Line
  prompt_type : PromptType
  settings_idx : Nat
  current_palette : Palette
  color_entries : List ColorEntry
  color_editor_idx : Nat
  editing_hex : Bool
  selection : Option Selection
  undo_stack : List UndoState
  redo_stack : List UndoState
  status_flash : Option String
  status_flash_timer : Nat
  confirm_mode : Option ConfirmType
  confirm_choice : ConfirmChoice
  clipboard : Line
  keybind_state : KeybindState
deriving DecidableEq

/-- src/core/state.rs AppState::current_buffer.  The Rust index
expression panics out of bounds; the model totalizes it with a default
buffer, never reached in modelled uses under the in-range hypothesis. -/
def AppState.currentBuffer (app : AppState) : Buffer :=
  app.buffers.getD app.active_buffer (Buffer.new "unsaved.txt")

/-- The current_buffer_mut write pattern: replace the active buffer. -/
def AppState.setCurrentBuffer (app : AppState) (buf : Buffer) : AppState :=
  { app with buffers := app.buffers.set app.active_buffer buf }

/-- src/core/state.rs AppState::flash_status. -/
def AppState.flashStatus (app : AppState) (msg : String) : AppState :=
  { app with status_flash := some msg, status_flash_timer := 20 }

/-- src/core/state.rs AppState::push_undo: snapshot the active buffer
(lines and cursor), drop the oldest entry when the stack already holds
100 or more, push the snapshot, clear the redo stack. -/
def AppState.pushUndo (app : AppState) : AppState :=
  let buf := app.currentBuffer
  let snap : UndoState := ⟨buf.lines, buf.cursor_x, buf.cursor_y⟩
  let stack := if 100 ≤ app.undo_stack.length then app.undo_stack.drop 1
               else app.undo_stack
  { app with undo_stack := stack ++ [snap], redo_stack := [] }

/-- src/core/editor.rs insert_tab (buffer part): insert tab_size spaces
at the cursor and advance the column by tab_size. -/
def Buffer.insertTabB (buf : Buffer) (tabSize : Nat) : Buffer :=
  { buf with
    lines := buf.lines.set buf.cursor_y
      (buf.curLine.take buf.cursor_x ++ List.replicate tabSize ' ' ++
        buf.curLine.drop buf.cursor_x)
    cursor_x := buf.cursor_x + tabSize
    modified := true }

/-- src/core/editor.rs insert_char (buffer part): insert the character
at the cursor, advance the column, mark modified. -/
def Buffer.insertCharB (buf : Buffer) (c : Char) : Buffer :=
  { buf with
    lines := buf.lines.set buf.cursor_y (insertAt buf.curLine buf.cursor_x c)
    cursor_x := buf.cursor_x + 1
    modified := true }

/-- src/core/editor.rs insert_newline (buffer part): split the current
line at the cursor, insert the remainder as the next line, move to
column 0 of it, mark modified. -/
def Buffer.insertNewlineB (buf : Buffer) : Buffer :=
  { buf with
    lines := insertAt (buf.lines.set buf.cursor_y (buf.curLine.take buf.cursor_x))
      (buf.cursor_y + 1) (buf.curLine.drop buf.cursor_x)
    cursor_y := buf.cursor_y + 1
    cursor_x := 0
    modified := true }

/-- src/core/editor.rs backspace (buffer part): delete the previous
character when the column is positive; otherwise merge the current line
into the previous one when not on the first line; the modified flag is
set unconditionally, also at position (0,0). -/
def Buffer.backspaceB (buf : Buffer) : Buffer :=
  if 0 < buf.cursor_x then
    { buf with
      lines := buf.lines.set buf.cursor_y (removeAt buf.curLine (buf.cursor_x - 1))
      cursor_x := buf.cursor_x - 1
      modified := true }
  else if 0 < buf.cursor_y then
    let currentLine := buf.curLine
    let lines1 := buf.lines.eraseIdx buf.cursor_y
    let py := buf.cursor_y - 1
    { buf with
      lines := lines1.set py (lines1.getD py [] ++ currentLine)
      cursor_y := py
      cursor_x := (lines1.getD py []).length
      modified := true }
  else
    { buf with modified := true }

/-- src/core/editor.rs move_cursor (buffer part): Up and Down clamp the
column to the destination line length; Left and Right stay within the
current line. -/
def Buffer.moveCursorB (buf : Buffer) (code : KeyCode) : Buffer :=
  match code with
  | .up =>
    if 0 < buf.cursor_y then
      let y := buf.cursor_y - 1
      { buf with cursor_y := y
                 cursor_x := min buf.cursor_x (buf.lines.getD y []).length }
    else buf
  | .down =>
    if buf.cursor_y < buf.lines.length - 1 then
      let y := buf.cursor_y + 1
      { buf with cursor_y := y
                 cursor_x := min buf.cursor_x (buf.lines.getD y []).length }
    else buf
  | .left => if 0 < buf.cursor_x then { buf with cursor_x := buf.cursor_x - 1 } else buf
  | .right =>
    if buf.cursor_x < buf.curLine.length then
      { buf with cursor_x := buf.cursor_x + 1 }
    else buf
  | _ => buf

/-- src/core/editor.rs delete_selection: a same-line range drains the
excerpt and sets the column to the range start (the cursor line is not
touched); a multi-line range splices the closed line range into the one
line made of the start-line prefix and the end-line suffix and moves the
cursor to the range start. -/
def Buffer.deleteSelectionB (buf : Buffer) (sx sy ex ey : Nat) : Buffer :=
  if sy = ey then
    let line := buf.lines.getD sy []
    { buf with
      lines := buf.lines.set sy (line.take sx ++ line.drop ex)
      cursor_x := sx }
  else
    let newLine := (buf.lines.getD sy []).take sx ++ (buf.lines.getD ey []).drop ex
    { buf with
      lines := buf.lines.take sy ++ newLine :: buf.lines.drop (ey + 1)
      cursor_y := sy
      cursor_x := sx }

/-- src/core/editor.rs extract_selected_text: concatenate the covered
span of each line of the closed range, a line break between consecutive
lines. -/
def extractSelectedText (buf : Buffer) (sx sy ex ey : Nat) : Line :=
  ((List.range (ey + 1 - sy)).map (fun k =>
    let y := sy + k
    let line := buf.lines.getD y []
    let s := if y = sy then sx else 0
    let e := if y = ey then ex else line.length
    (if s < e then (line.take e).drop s else []) ++
      (if y < ey then ['\n'] else []))).flatten

/-- src/core/editor.rs insert_char. -/
def insertChar (app : AppState) (c : Char) : AppState :=
  app.setCurrentBuffer (app.currentBuffer.insertCharB c)

/-- src/core/editor.rs insert_tab. -/
def insertTab (app : AppState) (tabSize : Nat) : AppState :=
  app.setCurrentBuffer (app.currentBuffer.insertTabB tabSize)

/-- src/core/editor.rs insert_newline. -/
def insertNewline (app : AppState) : AppState :=
  app.setCurrentBuffer app.currentBuffer.insertNewlineB

/-- src/core/editor.rs backspace. -/
def backspace (app : AppState) : AppState :=
  app.setCurrentBuffer app.currentBuffer.backspaceB

/-- src/core/editor.rs move_cursor. -/
def moveCursor (app : AppState) (code : KeyCode) : AppState :=
  app.setCurrentBuffer (app.currentBuffer.moveCursorB code)

/-- src/core/editor.rs handle_ctrl_move: Ctrl+Up jumps to (0,0), Ctrl+Down
to the end of the last line. -/
def handleCtrlMove (app : AppState) (code : KeyCode) : AppState :=
  let buf := app.currentBuffer
  match code with
  | .up => app.setCurrentBuffer { buf with cursor_y := 0, cursor_x := 0 }
  | .down =>
    let y := buf.lines.length - 1
    app.setCurrentBuffer { buf with cursor_y := y
                                    cursor_x := (buf.lines.getD y []).length }
  | _ => app

/-- src/core/editor.rs apply_selection_move: a shifted move with no
selection yet records the old cursor as the anchor. -/
def applySelectionMove (app : AppState) (shift : Bool) (oldX oldY : Nat) : AppState :=
  if shift ∧ app.selection = none then
    { app with selection := some (Selection.new oldX oldY) }
  else app

/-- src/core/editor.rs finalize_selection_move: a shifted move drags the
selection head to the new cursor; an unshifted move clears the selection. -/
def finalizeSelectionMove (app : AppState) (shift : Bool) : AppState :=
  let newX := app.currentBuffer.cursor_x
  let newY := app.currentBuffer.cursor_y
  if shift then
    match app.selection with
    | some sel => { app with selection := some { sel with end_x := newX, end_y := newY } }
    | none => app
  else { app with selection := none }

/-- src/core/editor.rs clear_selection. -/
def clearSelection (app : AppState) : AppState :=
  { app with selection := none }

/-- src/core/editor.rs select_all: select from (0,0) to the end of the
last line. -/
def selectAll (app : AppState) : AppState :=
  let buf := app.currentBuffer
  if buf.lines ≠ [] then
    let sel : Selection :=
      ⟨0, 0, (buf.lines.getD (buf.lines.length - 1) []).length, buf.lines.length - 1⟩
    { app with selection := some sel }
  else app

/-- One step of the paste loop of src/core/editor.rs paste_clipboard: a
newline splits the current line at the cursor, any other character is
inserted at the cursor and the column advances. -/
def pasteStep (buf : Buffer) (ch : Char) : Buffer :=
  if ch = '\n' then
    { buf with
      lines := insertAt (buf.lines.set buf.cursor_y (buf.curLine.take buf.cursor_x))
        (buf.cursor_y + 1) (buf.curLine.drop buf.cursor_x)
      cursor_y := buf.cursor_y + 1
      cursor_x := 0 }
  else
    { buf with
      lines := buf.lines.set buf.cursor_y (insertAt buf.curLine buf.cursor_x ch)
      cursor_x := buf.cursor_x + 1 }

/-- src/core/editor.rs paste_clipboard: iterate the clipboard characters
in REVERSED order (chars().rev()), apply the paste step to each, mark the
buffer modified and clear the selection. -/
def pasteClipboard (app : AppState) : AppState :=
  let buf := app.clipboard.reverse.foldl pasteStep app.currentBuffer
  { app.setCurrentBuffer { buf with modified := true } with selection := none }

/-- src/core/editor.rs undo: pop the newest undo snapshot, save the
current state on the redo stack, apply the snapshot, mark modified. -/
def undo (app : AppState) : AppState :=
  match app.undo_stack.getLast? with
  | none => app
  | some u =>
    let current := app.currentBuffer
    let redoState : UndoState := ⟨current.lines, current.cursor_x, current.cursor_y⟩
    { app.setCurrentBuffer
        { current with lines := u.lines, cursor_x := u.cursor_x,
                       cursor_y := u.cursor_y, modified := true } with
      undo_stack := app.undo_stack.dropLast
      redo_stack := app.redo_stack ++ [redoState] }

/-- src/core/editor.rs redo: symmetric to undo. -/
def redo (app : AppState) : AppState :=
  match app.redo_stack.getLast? with
  | none => app
  | some r =>
    let current := app.currentBuffer
    let undoState : UndoState := ⟨current.lines, current.cursor_x, current.cursor_y⟩
    { app.setCurrentBuffer
        { current with lines := r.lines, cursor_x := r.cursor_x,
                       cursor_y := r.cursor_y, modified := true } with
      redo_stack := app.redo_stack.dropLast
      undo_stack := app.undo_stack ++ [undoState] }

/-- src/core/editor.rs close_current_tab: with more than one buffer,
remove the active one and clamp the active index; otherwise do nothing. -/
def closeCurrentTab (app : AppState) : AppState :=
  if 1 < app.buffers.length then
    let buffers1 := app.buffers.eraseIdx app.active_buffer
    let active1 := if buffers1.length ≤ app.active_buffer then buffers1.length - 1
                   else app.active_buffer
    { app with buffers := buffers1, active_buffer := active1 }
  else app

/-- Debug rendering of a key code (Rust derive Debug format); only used
inside flash messages and persisted combo strings, which no theorem
inspects. -/
def keyCodeRepr : KeyCode → String
  | .char c =>
    let q := String.singleton (Char.ofNat 39)
    "Char(" ++ q ++ String.singleton c ++ q ++ ")"
  | .enter => "Enter"
  | .backspace => "Backspace"
  | .tab => "Tab"
  | .left => "Left"
  | .right => "Right"
  | .up => "Up"
  | .down => "Down"
  | .delete => "Delete"
  | .esc => "Esc"
  | .f n => "F(" ++ toString n ++ ")"

/-- Rendering of a modifier set (crossterm KeyModifiers Debug output,
approximated); only used inside persisted combo strings, which no
theorem inspects. -/
def keyModsRepr (m : KeyMods) : String :=
  let parts := List.filterMap id
    [if m.ctrl then some "CONTROL" else Option.none,
     if m.shift then some "SHIFT" else Option.none,
     if m.alt then some "ALT" else Option.none]
  "KeyModifiers(" ++ String.intercalate " | " parts ++ ")"

/-- src/core/state.rs KeyCombo Display: modifiers, a bar, the code. -/
def comboToString (c : KeyCombo) : String :=
  keyModsRepr c.modifiers ++ "|" ++ keyCodeRepr c.code

/-- src/core/editor.rs save_keybind_to_config: drop any persisted entry
with the same combo string, then append the new pair. -/
def saveKeybindToConfig (config : Config) (combo : KeyCombo)
    (action : KeybindAction) : Config :=
  let comboStr := comboToString combo
  { config with custom_keybinds :=
      config.custom_keybinds.filter (fun p => ¬ (p.1 = comboStr)) ++
        [(comboStr, action.toStr)] }

/-- src/core/editor.rs handle_keybind_capture.  The durable
save_config call is file output with an ignored result and is not
modelled.  Returns the mutated state, the mutated config and the
optional flash message. -/
def handleKeybindCapture (app : AppState) (config : Config) (code : KeyCode)
    (modifiers : KeyMods) : AppState × Config × Option String :=
  let kb := app.keybind_state
  if kb.waiting_for_key then
    match kb.pending_action with
    | some index =>
      match KeybindAction.fromIndex index with
      | some action =>
        let combo : KeyCombo := ⟨code, modifiers⟩
        let kb1 := { kb with custom_binds := bindsInsert kb.custom_binds combo action }
        let config1 := saveKeybindToConfig config combo action
        let modStr := if modifiers.ctrl then "Ctrl+"
                      else if modifiers.shift then "Shift+"
                      else if modifiers.alt then "Alt+"
                      else ""
        let msg := (modStr ++ keyCodeRepr code).trim ++ " BOUND & SAVED"
        let kb2 := { kb1 with waiting_for_key := false, pending_action := Option.none }
        ({ app with keybind_state := kb2 }, config1, some msg)
      | Option.none =>
        ({ app with keybind_state :=
            { kb with waiting_for_key := false, pending_action := Option.none } },
         config, Option.none)
    | Option.none =>
      ({ app with keybind_state :=
          { kb with waiting_for_key := false, pending_action := Option.none } },
       config, Option.none)
  else if kb.confirming_reset then
    match code with
    | .char c =>
      if c = 'y' ∨ c = 'Y' then
        ({ app with keybind_state :=
            { kb with custom_binds := [], confirming_reset := false } },
         { config with custom_keybinds := [] },
         some "ALL KEYBINDS RESET & SAVED")
      else
        ({ app with keybind_state := { kb with confirming_reset := false } },
         config, some "RESET CANCELLED")
    | _ =>
      ({ app with keybind_state := { kb with confirming_reset := false } },
       config, some "RESET CANCELLED")
  else
    (app, config, Option.none)

/-- src/core/editor.rs update_viewport: scroll each viewport offset so
the cursor stays inside the available width and height. -/
def updateViewport (app : AppState) (config : Config) (termW termH : Nat) : AppState :=
  let buf := app.currentBuffer
  let sidebarWidth := if config.show_line_numbers then 6 else 0
  let availableWidth := termW - sidebarWidth
  let availableHeight := termH -
    ((if config.show_header then 1 else 0) +
     (if config.show_tab_bar then 1 else 0) +
     (if config.show_status_bar then 1 else 0))
  let buf1 :=
    if buf.cursor_x < buf.viewport_offset_x then
      { buf with viewport_offset_x := buf.cursor_x }
    else if buf.viewport_offset_x + availableWidth ≤ buf.cursor_x then
      { buf with viewport_offset_x := buf.cursor_x - (availableWidth - 1) }
    else buf
  let buf2 :=
    if buf1.cursor_y < buf1.viewport_offset_y then
      { buf1 with viewport_offset_y := buf1.cursor_y }
    else if buf1.viewport_offset_y + availableHeight ≤ buf1.cursor_y then
      { buf1 with viewport_offset_y := buf1.cursor_y - (availableHeight - 1) }
    else buf1
  app.setCurrentBuffer buf2

/-- src/core/editor.rs perform_keybind_action.  File output in the Save
case is abstracted by the saveOk flag (the Result of save_to_file). -/
def performKeybindAction (saveOk : Bool) (app : AppState) (action : KeybindAction)
    (mode : Mode) : AppState × Mode :=
  match action with
  | .menu => (app, Mode.menu)
  | .save =>
    if saveOk then
      ((app.setCurrentBuffer { app.currentBuffer with modified := false }).flashStatus
        "SAVED", mode)
    else (app.flashStatus "SAVE FAILED", mode)
  | .undo => (undo app, mode)
  | .redo => (redo app, mode)
  | .newTab =>
    let buffers1 := app.buffers ++ [Buffer.new "unsaved.txt"]
    ({ app with buffers := buffers1, active_buffer := buffers1.length - 1 }, mode)
  | .closeTab =>
    if app.currentBuffer.modified then
      ({ app with confirm_mode := some ConfirmType.closeTab,
                  confirm_choice := ConfirmChoice.no }, mode)
    else (closeCurrentTab app, mode)
  | .nextTab =>
    (if 1 < app.buffers.length then
      { app with active_buffer := (app.active_buffer + 1) % app.buffers.length }
     else app, mode)
  | .prevTab =>
    (if 1 < app.buffers.length then
      { app with active_buffer :=
          if app.active_buffer = 0 then app.buffers.length - 1
          else app.active_buffer - 1 }
     else app, mode)
  | .selectAll => (selectAll app, mode)
  | .copy =>
    match app.selection with
    | some sel =>
      let (sx, sy, ex, ey) := sel.normalized
      (({ app with clipboard := extractSelectedText app.currentBuffer sx sy ex ey
        }).flashStatus "COPIED", mode)
    | Option.none => (app, mode)
  | .cut =>
    match app.selection with
    | some sel =>
      let (sx, sy, ex, ey) := sel.normalized
      let app1 := { app with clipboard := extractSelectedText app.currentBuffer sx sy ex ey }
      let app2 := app1.pushUndo
      let app3 := app2.setCurrentBuffer (app2.currentBuffer.deleteSelectionB sx sy ex ey)
      let app4 := { app3 with selection := Option.none }
      let app5 := app4.setCurrentBuffer { app4.currentBuffer with modified := true }
      (app5.flashStatus "CUT", mode)
    | Option.none => (app, mode)
  | .paste =>
    if app.clipboard ≠ [] then (pasteClipboard app.pushUndo, mode) else (app, mode)
  | .find =>
    ({ app with input_mode := true, prompt_type := PromptType.find,
                input_buffer := [] }, mode)
  | .goToLine =>
    ({ app with input_mode := true, prompt_type := PromptType.goToLine,
                input_buffer := [] }, mode)
  | .wipeBuffer => (app, Mode.confirmWipe)
  | .resetToDefault => (app, mode)

/-- A key event: code plus modifiers (crossterm KeyEvent, the two fields
the program reads). -/
structure KeyEvent where
  code : KeyCode
  modifiers : KeyMods
deriving DecidableEq, Repr

/-- The tail of src/app/controller.rs handle_editing_input after the
selection block: the Ctrl+V check followed by the main key match. -/
def handleEditingRest (saveOk : Bool) (app : AppState) (mode : Mode) (config : Config)
    (key : KeyEvent) (termW termH : Nat) : AppState × Mode :=
  if key.code = KeyCode.char 'v' ∧ key.modifiers.ctrl then
    (if app.clipboard ≠ [] then pasteClipboard app.pushUndo else app, mode)
  else
    match key.code with
    | .char c =>
      if c = 'a' ∧ key.modifiers.ctrl then (selectAll app, mode)
      else if c = 's' ∧ key.modifiers.ctrl then
        (if saveOk then
          (app.setCurrentBuffer { app.currentBuffer with modified := false
            }).flashStatus "SAVED"
         else app.flashStatus "SAVE FAILED", mode)
      else if c = 'z' ∧ key.modifiers.ctrl then (undo app, mode)
      else if c = 'y' ∧ key.modifiers.ctrl then (redo app, mode)
      else (clearSelection (insertChar app.pushUndo c), mode)
    | .up =>
      if key.modifiers.ctrl then
        (clearSelection (updateViewport (handleCtrlMove app .up) config termW termH),
         mode)
      else moveKeyBranch app mode config key termW termH
    | .down =>
      if key.modifiers.ctrl then
        (clearSelection (updateViewport (handleCtrlMove app .down) config termW termH),
         mode)
      else moveKeyBranch app mode config key termW termH
    | .tab => (insertTab app.pushUndo config.tab_size, mode)
    | .esc => ({ app with selection := Option.none }, Mode.menu)
    | .enter => (clearSelection (insertNewline app.pushUndo), mode)
    | .backspace => (clearSelection (backspace app.pushUndo), mode)
    | .left => moveKeyBranch app mode config key termW termH
    | .right => moveKeyBranch app mode config key termW termH
    | _ => (app, mode)
where
  /-- The arrow-key arm: record the anchor on a shifted move, move the
  cursor, scroll, then drag or clear the selection. -/
  moveKeyBranch (app : AppState) (mode : Mode) (config : Config) (key : KeyEvent)
      (termW termH : Nat) : AppState × Mode :=
    let oldX := app.currentBuffer.cursor_x
    let oldY := app.currentBuffer.cursor_y
    let app1 := applySelectionMove app key.modifiers.shift oldX oldY
    let app2 := moveCursor app1 key.code
    let app3 := updateViewport app2 config termW termH
    (finalizeSelectionMove app3 key.modifiers.shift, mode)

/-- src/app/controller.rs handle_editing_input: custom keybinds are
consulted first and a hit performs the bound action and returns; with an
active selection, Backspace, Delete and Ctrl+C, Ctrl+X, Ctrl+A act on
the selection and return; everything else falls through to the built-in
handling. -/
def handleEditingInput (saveOk : Bool) (app : AppState) (mode : Mode) (config : Config)
    (key : KeyEvent) (termW termH : Nat) : AppState × Mode :=
  let combo : KeyCombo := ⟨key.code, key.modifiers⟩
  match bindsGet app.keybind_state.custom_binds combo with
  | some action => performKeybindAction saveOk app action mode
  | Option.none =>
    match app.selection with
    | some sel =>
      let (sx, sy, ex, ey) := sel.normalized
      let selectedText := extractSelectedText app.currentBuffer sx sy ex ey
      match key.code with
      | .backspace =>
        (deleteSelectionPath app sx sy ex ey, mode)
      | .delete =>
        (deleteSelectionPath app sx sy ex ey, mode)
      | .char c =>
        if c = 'c' ∧ key.modifiers.ctrl then
          ({ app with clipboard := selectedText }, mode)
        else if c = 'x' ∧ key.modifiers.ctrl then
          (deleteSelectionPath { app with clipboard := selectedText } sx sy ex ey, mode)
        else if c = 'a' ∧ key.modifiers.ctrl then (selectAll app, mode)
        else handleEditingRest saveOk app mode config key termW termH
      | _ => handleEditingRest saveOk app mode config key termW termH
    | Option.none => handleEditingRest saveOk app mode config key termW termH
where
  /-- Shared delete-selection sequence: push undo, delete the range,
  clear the selection, mark the buffer modified. -/
  deleteSelectionPath (app : AppState) (sx sy ex ey : Nat) : AppState :=
    let app1 := app.pushUndo
    let app2 := app1.setCurrentBuffer (app1.currentBuffer.deleteSelectionB sx sy ex ey)
    let app3 := { app2 with selection := Option.none }
    app3.setCurrentBuffer { app3.currentBuffer with modified := true }

/-- src/app/controller.rs, ColorEditor mode, Ctrl+S: parse the entries,
apply the palette, store it into the config, flash, return to Settings.
The durable save_config call is unmodelled file output. -/
def colorEditorCtrlS (app : AppState) (config : Config) :
    AppState × Config × Mode :=
  match parsePaletteFromEntries app.color_entries with
  | .ok newPalette =>
    let app1 := ({ app with current_palette := newPalette }).flashStatus "COLORS SAVED"
    let config1 := { config with palette := newPalette.toConfig }
    (app1, config1, Mode.settings)
  | .error _ => (app, config, Mode.settings)

/-- src/core/state.rs AppState::new (restricted to the modelled fields). -/
def AppState.new : AppState :=
  { buffers := [Buffer.new "unsaved.txt"]
    active_buffer := 0
    input_mode := false
    input_buffer := []
    prompt_type := PromptType.find
    settings_idx := 0
    current_palette := Palette.defaultPalette
    color_entries := []
    color_editor_idx := 0
    editing_hex := false
    selection := Option.none
    undo_stack := []
    redo_stack := []
    status_flash := Option.none
    status_flash_timer := 0
    confirm_mode := Option.none
    confirm_choice := ConfirmChoice.no
    clipboard := []
    keybind_state := KeybindState.default }

/-- src/core/state.rs Config::default. -/
def Config.defaultConfig : Config :=
  { show_line_numbers := true
    show_status_bar := true
    show_header := true
    auto_save := false
    tab_size := 4
    palette := PaletteConfig.defaultConfig
    stx_highlight := true
    show_tab_bar := true
    custom_keybinds := [] }

/-- A state with two fresh tabs, the second active (as after one new-tab
action); used as a concrete witness input. -/
def twoTabs : AppState :=
  { AppState.new with
    buffers := [Buffer.new "unsaved.txt", Buffer.new "unsaved.txt"]
    active_buffer := 1 }

/-- The single buffer edits of the specification (the operations that a
push_undo precedes in the controller): one buffer-content mutation. -/
inductive EditOp where
  | ichar (c : Char)
  | inewline
  | ibackspace
  | itab (n : Nat)
  | idelete (sx sy ex ey : Nat)
deriving DecidableEq, Repr

/-- Apply one edit to the state, exactly as the controller invokes the
editor operations (delete_selection through current_buffer_mut). -/
def applyEdit (app : AppState) : EditOp → AppState
  | .ichar c => insertChar app c
  | .inewline => insertNewline app
  | .ibackspace => backspace app
  | .itab n => insertTab app n
  | .idelete sx sy ex ey =>
    app.setCurrentBuffer (app.currentBuffer.deleteSelectionB sx sy ex ey)

/-- Modelled from the spec: paste as the fold of insert_char, and
insert_newline for a line break, over the clipboard characters in
original front-to-back order.  This is the reference behaviour a
refinement claim compares paste_clipboard against. -/
def specPasteInsert (app : AppState) : AppState :=
  app.clipboard.foldl
    (fun a ch => if ch = '\n' then insertNewline a else insertChar a ch) app

/-- The last well-formed hex value carried by an entry of the given name
(specification vocabulary for the parse characterization). -/
def lastWellFormed : List ColorEntry → String → Option Line
  | [], _ => Option.none
  | e :: rest, n =>
    match lastWellFormed rest n with
    | some h => some h
    | Option.none =>
      if isWellFormedHex e.current_hex ∧ e.name = n then some e.current_hex
      else Option.none

/-- A state in the key-rebind screen, waiting for a key with the Menu
action (index 0) pending; concrete witness input for the capture step. -/
def capApp : AppState :=
  { AppState.new with
    keybind_state :=
      { KeybindState.default with waiting_for_key := true, pending_action := some 0 } }

/-- A state whose keybind table maps Ctrl+M to the Menu action; concrete
witness input for the dispatch step. -/
def dispApp : AppState :=
  { AppState.new with
    keybind_state :=
      { KeybindState.default with
        custom_binds := [(⟨KeyCode.char 'm', ⟨true, false, false⟩⟩, KeybindAction.menu)] } }

/-- A state whose single buffer holds the line hi with the cursor at
column 1 and the whole line selected; concrete witness input. -/
def selApp : AppState :=
  { AppState.new with
    buffers := [{ Buffer.new "unsaved.txt" with lines := [['h', 'i']], cursor_x := 1 }]
    selection := some ⟨0, 0, 2, 0⟩ }

/-- A palette whose ui_background channel was applied earlier from the
well-formed entry ABCDEF, differing from the default; concrete input for
the color editor counterexample. -/
def editedPalette : Palette :=
  Palette.fromConfig
    { PaletteConfig.defaultConfig with ui_background := "#ABCDEF".toList }

/-- The color editor state over editedPalette whose first entry, the
ui_background one, has been edited down to the malformed #AB. -/
def editedApp : AppState :=
  { AppState.new with
    current_palette := editedPalette
    color_entries :=
      (populateColorEntries editedPalette).set 0 ⟨"ui_background", "#AB".toList⟩ }

/-- The buffer invariant of the specification: at least one line, the
cursor line in range, the cursor column at most the line length. -/
def BufferInv (buf : Buffer) : Prop :=
  buf.lines ≠ [] ∧ buf.cursor_y < buf.lines.length ∧
    buf.cursor_x ≤ buf.curLine.length

instance (buf : Buffer) : Decidable (BufferInv buf) := by
  unfold BufferInv; infer_instance

/-- A normalized, in-bounds selection range of a buffer. -/
def RangeOk (buf : Buffer) (sx sy ex ey : Nat) : Prop :=
  (sy < ey ∨ (sy = ey ∧ sx ≤ ex)) ∧ ey < buf.lines.length ∧
    sx ≤ (buf.lines.getD sy []).length ∧ ex ≤ (buf.lines.getD ey []).length

instance (buf : Buffer) (sx sy ex ey : Nat) : Decidable (RangeOk buf sx sy ex ey) := by
  unfold RangeOk; infer_instance

theorem length_insertAt {α : Type} {l : List α} {n : Nat} (a : α) (h : n ≤ l.length) :
    (insertAt l n a).length = l.length + 1 := by
  simp [insertAt]; omega

theorem length_removeAt {α : Type} {l : List α} {n : Nat} (h : n < l.length) :
    (removeAt l n).length = l.length - 1 := by
  simp [removeAt]; omega

theorem getD_set_self {α : Type} {l : List α} {i : Nat} (a d : α) (h : i < l.length) :
    (l.set i a).getD i d = a := by
  simp [List.getD_eq_getElem?_getD, List.getElem?_set_self, h]

theorem getD_append_cons {α : Type} (l1 l2 : List α) (a d : α) :
    (l1 ++ a :: l2).getD l1.length d = a := by
  rw [List.getD_eq_getElem?_getD, List.getElem?_append_right (le_refl l1.length)]
  simp

theorem getD_append_cons_of_length {α : Type} {l1 : List α} {n : Nat}
    (l2 : List α) (a d : α) (h : l1.length = n) :
    (l1 ++ a :: l2).getD n d = a := by
  subst h
  exact getD_append_cons l1 l2 a d

/-- C3 counterexample: on a fresh single-line buffer with the cursor at
(0,0) and a clean modified flag, backspace is not the identity: it sets
the modified flag even though lines and cursor are untouched. -/
theorem backspace_at_origin_not_noop :
    backspace AppState.new ≠ AppState.new ∧
      (backspace AppState.new).currentBuffer.modified = true ∧
      AppState.new.currentBuffer.modified = false ∧
      (backspace AppState.new).currentBuffer.lines = AppState.new.currentBuffer.lines ∧
      (backspace AppState.new).currentBuffer.cursor_x = 0 ∧
      (backspace AppState.new).currentBuffer.cursor_y = 0 := by
  refine ⟨?_, rfl, rfl, rfl, rfl, rfl⟩
  decide

/-- C3 amended: backspace with the cursor at (0,0) leaves the lines, the
cursor and every other field of the state unchanged, except that it sets
the modified flag of the active buffer to true. -/
theorem backspace_at_origin_sets_modified_only (app : AppState)
    (hx : app.currentBuffer.cursor_x = 0) (hy : app.currentBuffer.cursor_y = 0) :
    backspace app = app.setCurrentBuffer { app.currentBuffer with modified := true } := by
  simp [backspace, Buffer.backspaceB, hx, hy]

/-- C3 witness: the amended theorem applied to the fresh state. -/
theorem backspace_at_origin_sets_modified_only_witness :
    backspace AppState.new =
      AppState.new.setCurrentBuffer { AppState.new.currentBuffer with modified := true } :=
  backspace_at_origin_sets_modified_only AppState.new rfl rfl

/-- C7: push_undo appends a snapshot of the active buffer (lines and
cursor), after dropping the oldest entry when the stack already holds
100 or more entries; the redo stack is emptied, and a stack within the
100-entry bound stays within it. -/
theorem pushUndo_spec (app : AppState) (h : app.undo_stack.length ≤ 100) :
    app.pushUndo.undo_stack =
      (if 100 ≤ app.undo_stack.length then app.undo_stack.drop 1 else app.undo_stack) ++
        [⟨app.currentBuffer.lines, app.currentBuffer.cursor_x,
          app.currentBuffer.cursor_y⟩] ∧
    app.pushUndo.redo_stack = [] ∧
    app.pushUndo.undo_stack.length ≤ 100 := by
  refine ⟨rfl, rfl, ?_⟩
  simp only [AppState.pushUndo, List.length_append, List.length_drop]
  split <;> simp <;> omega

/-- C7 witness: push_undo on the fresh state. -/
theorem pushUndo_spec_witness :
    AppState.new.pushUndo.undo_stack =
      (if 100 ≤ AppState.new.undo_stack.length then AppState.new.undo_stack.drop 1
       else AppState.new.undo_stack) ++
        [⟨AppState.new.currentBuffer.lines, AppState.new.currentBuffer.cursor_x,
          AppState.new.currentBuffer.cursor_y⟩] ∧
    AppState.new.pushUndo.redo_stack = [] ∧
    AppState.new.pushUndo.undo_stack.length ≤ 100 :=
  pushUndo_spec AppState.new (by decide)

/-- C9: with a non-empty buffer collection and the active index in
range, close_current_tab keeps the collection non-empty and the index in
range; with a single buffer it is the identity, and otherwise it removes
exactly the active buffer, clamping the index to the new last buffer
when it would fall out of range. -/
theorem closeCurrentTab_spec (app : AppState) (h0 : app.buffers ≠ [])
    (h : app.active_buffer < app.buffers.length) :
    (closeCurrentTab app).buffers ≠ [] ∧
    (closeCurrentTab app).active_buffer < (closeCurrentTab app).buffers.length ∧
    closeCurrentTab app =
      (if app.buffers.length ≤ 1 then app
       else
        { app with
          buffers := app.buffers.eraseIdx app.active_buffer
          active_buffer :=
            if (app.buffers.eraseIdx app.active_buffer).length ≤ app.active_buffer then
              (app.buffers.eraseIdx app.active_buffer).length - 1
            else app.active_buffer }) := by
  have hlen : (app.buffers.eraseIdx app.active_buffer).length = app.buffers.length - 1 :=
    List.length_eraseIdx_of_lt h
  by_cases hgt : 1 < app.buffers.length
  · have hc : closeCurrentTab app =
        { app with
          buffers := app.buffers.eraseIdx app.active_buffer
          active_buffer :=
            if (app.buffers.eraseIdx app.active_buffer).length ≤ app.active_buffer then
              (app.buffers.eraseIdx app.active_buffer).length - 1
            else app.active_buffer } := by
      simp [closeCurrentTab, hgt]
    rw [hc]
    refine ⟨?_, ?_, ?_⟩
    · exact List.length_pos.mp
        (show 0 < (app.buffers.eraseIdx app.active_buffer).length by omega)
    · dsimp only
      by_cases hcl : (app.buffers.eraseIdx app.active_buffer).length ≤ app.active_buffer
      · rw [if_pos hcl]; omega
      · rw [if_neg hcl]; omega
    · rw [if_neg (show ¬ app.buffers.length ≤ 1 by omega)]
  · have hc : closeCurrentTab app = app := by
      simp [closeCurrentTab, hgt]
    rw [hc]
    exact ⟨h0, h, by rw [if_pos (by omega)]⟩

/-- C9 witness: closing with two buffers open and the second active. -/
theorem closeCurrentTab_spec_witness :
    (closeCurrentTab twoTabs).buffers ≠ [] ∧
    (closeCurrentTab twoTabs).active_buffer < (closeCurrentTab twoTabs).buffers.length ∧
    closeCurrentTab twoTabs =
      (if twoTabs.buffers.length ≤ 1 then twoTabs
       else
        { twoTabs with
          buffers := twoTabs.buffers.eraseIdx twoTabs.active_buffer
          active_buffer :=
            if twoTabs.buffers.length - 1 ≤ twoTabs.active_buffer then
              twoTabs.buffers.length - 2
            else twoTabs.active_buffer }) :=
  closeCurrentTab_spec twoTabs (by decide) (by decide)

/-- C1: paste_clipboard iterates the clipboard in reversed order while
still advancing the cursor after each insertion, so pasting the
two-character clipboard ab into a fresh buffer yields the line ba,
whereas folding insert_char over the clipboard in original order yields
ab; the two disagree on the resulting lines. -/
theorem paste_clipboard_reverses_text :
    (pasteClipboard { AppState.new with clipboard := ['a', 'b'] }).currentBuffer.lines =
      [['b', 'a']] ∧
    (specPasteInsert { AppState.new with clipboard := ['a', 'b'] }).currentBuffer.lines =
      [['a', 'b']] ∧
    (pasteClipboard { AppState.new with clipboard := ['a', 'b'] }).currentBuffer.lines ≠
      (specPasteInsert { AppState.new with clipboard := ['a', 'b'] }).currentBuffer.lines := by
  refine ⟨rfl, rfl, ?_⟩
  decide

/-- C2: the cut/paste round trip fails: extracting the whole single line
ab, deleting that range (cursor moves to the range start) and pasting
the extracted text back through paste_clipboard produces the line ba,
not the original ab, because paste inserts in reversed order. -/
theorem cut_paste_round_trip_fails :
    extractSelectedText { Buffer.new "unsaved.txt" with lines := [['a', 'b']] } 0 0 2 0 =
      ['a', 'b'] ∧
    (Buffer.deleteSelectionB { Buffer.new "unsaved.txt" with lines := [['a', 'b']] }
        0 0 2 0).lines = [[]] ∧
    (pasteClipboard
        { AppState.new with
          buffers := [Buffer.deleteSelectionB
            { Buffer.new "unsaved.txt" with lines := [['a', 'b']] } 0 0 2 0]
          clipboard := extractSelectedText
            { Buffer.new "unsaved.txt" with lines := [['a', 'b']] } 0 0 2 0
        }).currentBuffer.lines = [['b', 'a']] ∧
    (pasteClipboard
        { AppState.new with
          buffers := [Buffer.deleteSelectionB
            { Buffer.new "unsaved.txt" with lines := [['a', 'b']] } 0 0 2 0]
          clipboard := extractSelectedText
            { Buffer.new "unsaved.txt" with lines := [['a', 'b']] } 0 0 2 0
        }).currentBuffer.lines ≠
      ({ Buffer.new "unsaved.txt" with lines := [['a', 'b']] } : Buffer).lines := by
  refine ⟨rfl, rfl, rfl, ?_⟩
  decide

theorem inv_insertCharB {buf : Buffer} (c : Char) (h : BufferInv buf) :
    BufferInv (buf.insertCharB c) := by
  obtain ⟨h1, h2, h3⟩ := h
  simp only [Buffer.curLine] at h3
  refine ⟨?_, ?_, ?_⟩
  · apply List.length_pos.mp
    simp only [Buffer.insertCharB, List.length_set]
    exact List.length_pos.mpr h1
  · simpa only [Buffer.insertCharB, List.length_set] using h2
  · simp only [Buffer.insertCharB, Buffer.curLine]
    rw [getD_set_self _ _ h2, length_insertAt _ h3]
    omega

theorem inv_insertTabB {buf : Buffer} (n : Nat) (h : BufferInv buf) :
    BufferInv (buf.insertTabB n) := by
  obtain ⟨h1, h2, h3⟩ := h
  simp only [Buffer.curLine] at h3
  refine ⟨?_, ?_, ?_⟩
  · apply List.length_pos.mp
    simp only [Buffer.insertTabB, List.length_set]
    exact List.length_pos.mpr h1
  · simpa only [Buffer.insertTabB, List.length_set] using h2
  · simp only [Buffer.insertTabB, Buffer.curLine]
    rw [getD_set_self _ _ h2]
    simp only [List.length_append, List.length_take, List.length_drop,
      List.length_replicate]
    omega

theorem inv_insertNewlineB {buf : Buffer} (h : BufferInv buf) :
    BufferInv buf.insertNewlineB := by
  obtain ⟨h1, h2, h3⟩ := h
  have hlen : (insertAt (buf.lines.set buf.cursor_y (buf.curLine.take buf.cursor_x))
      (buf.cursor_y + 1) (buf.curLine.drop buf.cursor_x)).length =
      buf.lines.length + 1 := by
    rw [length_insertAt]
    · rw [List.length_set]
    · rw [List.length_set]; omega
  refine ⟨?_, ?_, ?_⟩
  · apply List.length_pos.mp
    simp only [Buffer.insertNewlineB, hlen]
    omega
  · simp only [Buffer.insertNewlineB, hlen]
    omega
  · simp only [Buffer.insertNewlineB]
    exact Nat.zero_le _

theorem inv_backspaceB {buf : Buffer} (h : BufferInv buf) :
    BufferInv buf.backspaceB := by
  obtain ⟨h1, h2, h3⟩ := h
  simp only [Buffer.curLine] at h3
  by_cases hx : 0 < buf.cursor_x
  · rw [Buffer.backspaceB, if_pos hx]
    refine ⟨?_, ?_, ?_⟩
    · apply List.length_pos.mp
      simp only [List.length_set]
      exact List.length_pos.mpr h1
    · simpa only [List.length_set] using h2
    · simp only [Buffer.curLine]
      rw [getD_set_self _ _ h2, length_removeAt (by omega)]
      omega
  · by_cases hy : 0 < buf.cursor_y
    · rw [Buffer.backspaceB, if_neg hx, if_pos hy]
      have he : (buf.lines.eraseIdx buf.cursor_y).length = buf.lines.length - 1 :=
        List.length_eraseIdx_of_lt h2
      have hpy : buf.cursor_y - 1 < (buf.lines.eraseIdx buf.cursor_y).length := by
        omega
      refine ⟨?_, ?_, ?_⟩
      · apply List.length_pos.mp
        simp only [List.length_set]
        omega
      · simp only [List.length_set]
        exact hpy
      · simp only [Buffer.curLine]
        rw [getD_set_self _ _ hpy]
        simp
    · rw [Buffer.backspaceB, if_neg hx, if_neg hy]
      exact ⟨h1, h2, h3⟩

theorem inv_moveCursorB {buf : Buffer} (code : KeyCode) (h : BufferInv buf) :
    BufferInv (buf.moveCursorB code) := by
  obtain ⟨h1, h2, h3⟩ := h
  simp only [Buffer.curLine] at h3
  cases code with
  | up =>
    by_cases hy : 0 < buf.cursor_y
    · rw [Buffer.moveCursorB, if_pos hy]
      refine ⟨h1, ?_, ?_⟩
      · show buf.cursor_y - 1 < buf.lines.length
        omega
      · show min buf.cursor_x (buf.lines.getD (buf.cursor_y - 1) []).length ≤
          (buf.lines.getD (buf.cursor_y - 1) []).length
        exact Nat.min_le_right _ _
    · rw [Buffer.moveCursorB, if_neg hy]
      exact ⟨h1, h2, h3⟩
  | down =>
    by_cases hy : buf.cursor_y < buf.lines.length - 1
    · rw [Buffer.moveCursorB, if_pos hy]
      refine ⟨h1, ?_, ?_⟩
      · show buf.cursor_y + 1 < buf.lines.length
        omega
      · show min buf.cursor_x (buf.lines.getD (buf.cursor_y + 1) []).length ≤
          (buf.lines.getD (buf.cursor_y + 1) []).length
        exact Nat.min_le_right _ _
    · rw [Buffer.moveCursorB, if_neg hy]
      exact ⟨h1, h2, h3⟩
  | left =>
    by_cases hx : 0 < buf.cursor_x
    · rw [Buffer.moveCursorB, if_pos hx]
      refine ⟨h1, h2, ?_⟩
      simp only [Buffer.curLine] at h3 ⊢
      omega
    · rw [Buffer.moveCursorB, if_neg hx]
      exact ⟨h1, h2, h3⟩
  | right =>
    by_cases hx : buf.cursor_x < buf.curLine.length
    · rw [Buffer.moveCursorB, if_pos hx]
      refine ⟨h1, h2, ?_⟩
      simp only [Buffer.curLine] at hx ⊢
      omega
    · rw [Buffer.moveCursorB, if_neg hx]
      exact ⟨h1, h2, h3⟩
  | char c => exact ⟨h1, h2, h3⟩
  | enter => exact ⟨h1, h2, h3⟩
  | backspace => exact ⟨h1, h2, h3⟩
  | tab => exact ⟨h1, h2, h3⟩
  | delete => exact ⟨h1, h2, h3⟩
  | esc => exact ⟨h1, h2, h3⟩
  | f n => exact ⟨h1, h2, h3⟩

theorem inv_deleteSelectionB {buf : Buffer} {sx sy ex ey : Nat}
    (h : BufferInv buf) (hr : RangeOk buf sx sy ex ey)
    (hcy : sy = ey → buf.cursor_y = sy) :
    BufferInv (buf.deleteSelectionB sx sy ex ey) := by
  obtain ⟨h1, h2, h3⟩ := h
  simp only [Buffer.curLine] at h3
  obtain ⟨hn, hey, hsx, hex⟩ := hr
  by_cases hse : sy = ey
  · rw [Buffer.deleteSelectionB, if_pos hse]
    have hyc : buf.cursor_y = sy := hcy hse
    have hsy : sy < buf.lines.length := by omega
    refine ⟨?_, ?_, ?_⟩
    · apply List.length_pos.mp
      simp only [List.length_set]
      exact List.length_pos.mpr h1
    · simpa only [List.length_set] using h2
    · simp only [Buffer.curLine, hyc]
      rw [getD_set_self _ _ hsy]
      subst hse
      simp only [List.length_append, List.length_take, List.length_drop]
      omega
  · rw [Buffer.deleteSelectionB, if_neg hse]
    have hsy : sy < ey := by
      rcases hn with hlt | ⟨heq, _⟩
      · exact hlt
      · exact absurd heq hse
    have htk : (buf.lines.take sy).length = sy := by
      rw [List.length_take]; omega
    have hlen : (buf.lines.take sy ++
        ((buf.lines.getD sy []).take sx ++ (buf.lines.getD ey []).drop ex) ::
          buf.lines.drop (ey + 1)).length =
        sy + 1 + (buf.lines.length - (ey + 1)) := by
      simp only [List.length_append, List.length_cons, List.length_drop, htk]
      omega
    have hget : (buf.lines.take sy ++
        ((buf.lines.getD sy []).take sx ++ (buf.lines.getD ey []).drop ex) ::
          buf.lines.drop (ey + 1)).getD sy [] =
        (buf.lines.getD sy []).take sx ++ (buf.lines.getD ey []).drop ex :=
      getD_append_cons_of_length _ _ _ htk
    refine ⟨?_, ?_, ?_⟩
    · apply List.length_pos.mp
      show 0 < (buf.lines.take sy ++
        ((buf.lines.getD sy []).take sx ++ (buf.lines.getD ey []).drop ex) ::
          buf.lines.drop (ey + 1)).length
      rw [hlen]; omega
    · show sy < (buf.lines.take sy ++
        ((buf.lines.getD sy []).take sx ++ (buf.lines.getD ey []).drop ex) ::
          buf.lines.drop (ey + 1)).length
      rw [hlen]; omega
    · show sx ≤ ((buf.lines.take sy ++
        ((buf.lines.getD sy []).take sx ++ (buf.lines.getD ey []).drop ex) ::
          buf.lines.drop (ey + 1)).getD sy []).length
      rw [hget]
      simp only [List.length_append, List.length_take, List.length_drop]
      omega

/-- C5 counterexample: a buffer satisfying the invariant, and a
normalized in-bounds single-line range on a line other than the cursor
line; delete_selection moves the cursor column to the range start
without touching the cursor line, violating the invariant. -/
theorem delete_selection_breaks_invariant :
    BufferInv { Buffer.new "unsaved.txt" with lines := [[], ['a', 'b', 'c']] } ∧
    RangeOk { Buffer.new "unsaved.txt" with lines := [[], ['a', 'b', 'c']] } 1 1 2 1 ∧
    ¬ BufferInv
      (Buffer.deleteSelectionB
        { Buffer.new "unsaved.txt" with lines := [[], ['a', 'b', 'c']] } 1 1 2 1) := by
  refine ⟨by decide, by decide, ?_⟩
  decide

/-- C5 amended: every edit operation preserves the buffer invariant —
insert_char, insert_tab, insert_newline, backspace, move_cursor
unconditionally, and delete_selection on a normalized in-bounds range
provided that, for a single-line range, the cursor sits on the range
line (as it does at every program call site, where the cursor is an
endpoint of the selection). -/
theorem edit_ops_preserve_invariant (buf : Buffer) (c : Char) (n : Nat)
    (code : KeyCode) (sx sy ex ey : Nat) (h : BufferInv buf)
    (hr : RangeOk buf sx sy ex ey) (hcy : sy = ey → buf.cursor_y = sy) :
    BufferInv (buf.insertCharB c) ∧
    BufferInv (buf.insertTabB n) ∧
    BufferInv buf.insertNewlineB ∧
    BufferInv buf.backspaceB ∧
    BufferInv (buf.moveCursorB code) ∧
    BufferInv (buf.deleteSelectionB sx sy ex ey) :=
  ⟨inv_insertCharB c h, inv_insertTabB n h, inv_insertNewlineB h,
   inv_backspaceB h, inv_moveCursorB code h, inv_deleteSelectionB h hr hcy⟩

/-- C5 witness: the amended theorem on a concrete two-line buffer with
the cursor on the range line. -/
theorem edit_ops_preserve_invariant_witness :
    BufferInv (Buffer.insertCharB
      { Buffer.new "unsaved.txt" with lines := [['a', 'b'], ['c']] } 'q') ∧
    BufferInv (Buffer.insertTabB
      { Buffer.new "unsaved.txt" with lines := [['a', 'b'], ['c']] } 4) ∧
    BufferInv (Buffer.insertNewlineB
      { Buffer.new "unsaved.txt" with lines := [['a', 'b'], ['c']] }) ∧
    BufferInv (Buffer.backspaceB
      { Buffer.new "unsaved.txt" with lines := [['a', 'b'], ['c']] }) ∧
    BufferInv (Buffer.moveCursorB
      { Buffer.new "unsaved.txt" with lines := [['a', 'b'], ['c']] } KeyCode.down) ∧
    BufferInv (Buffer.deleteSelectionB
      { Buffer.new "unsaved.txt" with lines := [['a', 'b'], ['c']] } 0 0 1 0) :=
  edit_ops_preserve_invariant
    { Buffer.new "unsaved.txt" with lines := [['a', 'b'], ['c']] } 'q' 4
    KeyCode.down 0 0 1 0 (by decide) (by decide) (by decide)

theorem applyEdit_undo_stack (a : AppState) (op : EditOp) :
    (applyEdit a op).undo_stack = a.undo_stack := by
  cases op <;> rfl

theorem applyEdit_active (a : AppState) (op : EditOp) :
    (applyEdit a op).active_buffer = a.active_buffer := by
  cases op <;> rfl

theorem applyEdit_buffers_length (a : AppState) (op : EditOp) :
    (applyEdit a op).buffers.length = a.buffers.length := by
  cases op <;>
    simp [applyEdit, insertChar, insertTab, insertNewline, backspace,
      AppState.setCurrentBuffer, List.length_set]

theorem undo_applies_last (a : AppState) (s : UndoState) (l : List UndoState)
    (hs : a.undo_stack = l ++ [s]) (h : a.active_buffer < a.buffers.length) :
    (undo a).currentBuffer.lines = s.lines ∧
    (undo a).currentBuffer.cursor_x = s.cursor_x ∧
    (undo a).currentBuffer.cursor_y = s.cursor_y := by
  unfold undo
  rw [hs, List.getLast?_concat]
  simp only [AppState.currentBuffer, AppState.setCurrentBuffer]
  rw [getD_set_self _ _ h]
  exact ⟨rfl, rfl, rfl⟩

/-- C6: push_undo, then any single buffer edit, then undo restores the
lines and cursor of the active buffer exactly to their values at the
push, which are their values just before the edit. -/
theorem push_edit_undo_restores (app : AppState) (op : EditOp)
    (h : app.active_buffer < app.buffers.length) :
    (undo (applyEdit app.pushUndo op)).currentBuffer.lines =
      app.currentBuffer.lines ∧
    (undo (applyEdit app.pushUndo op)).currentBuffer.cursor_x =
      app.currentBuffer.cursor_x ∧
    (undo (applyEdit app.pushUndo op)).currentBuffer.cursor_y =
      app.currentBuffer.cursor_y := by
  have hs : (applyEdit app.pushUndo op).undo_stack =
      (if 100 ≤ app.undo_stack.length then app.undo_stack.drop 1
       else app.undo_stack) ++
        [⟨app.currentBuffer.lines, app.currentBuffer.cursor_x,
          app.currentBuffer.cursor_y⟩] := by
    rw [applyEdit_undo_stack]; rfl
  have ha : (applyEdit app.pushUndo op).active_buffer = app.active_buffer := by
    rw [applyEdit_active]; rfl
  have hl : (applyEdit app.pushUndo op).buffers.length = app.buffers.length := by
    rw [applyEdit_buffers_length]; rfl
  exact undo_applies_last (applyEdit app.pushUndo op) _ _ hs (by rw [ha, hl]; exact h)

/-- C6 witness: inserting the character a on the fresh state. -/
theorem push_edit_undo_restores_witness :
    (undo (applyEdit AppState.new.pushUndo (EditOp.ichar 'a'))).currentBuffer.lines =
      AppState.new.currentBuffer.lines ∧
    (undo (applyEdit AppState.new.pushUndo (EditOp.ichar 'a'))).currentBuffer.cursor_x =
      AppState.new.currentBuffer.cursor_x ∧
    (undo (applyEdit AppState.new.pushUndo (EditOp.ichar 'a'))).currentBuffer.cursor_y =
      AppState.new.currentBuffer.cursor_y :=
  push_edit_undo_restores AppState.new (EditOp.ichar 'a') (by decide)

theorem bindsGet_insert_self (t : BindTable) (k : KeyCombo) (a : KeybindAction) :
    bindsGet (bindsInsert t k a) k = some a := by
  simp [bindsGet, bindsInsert]

theorem bindsGet_insert_ne (t : BindTable) (k k2 : KeyCombo) (a : KeybindAction)
    (h : k2 ≠ k) : bindsGet (bindsInsert t k a) k2 = bindsGet t k2 := by
  have hk : ¬ ((k, a).1 = k2) := fun hh => h (hh.symm)
  simp only [bindsGet, bindsInsert]
  rw [List.find?_cons_of_neg _ (by simpa using hk)]
  congr 1
  induction t with
  | nil => rfl
  | cons e rest ih =>
    rcases eq_or_ne e.1 k with he | he
    · have he2 : ¬ (e.1 = k2) := fun hh => h ((hh ▸ he : k2 = k))
      rw [List.filter_cons_of_neg (by simpa using he),
        List.find?_cons_of_neg _ (by simpa using he2)]
      exact ih
    · rw [List.filter_cons_of_pos (by simpa using he)]
      by_cases he2 : e.1 = k2
      · rw [List.find?_cons_of_pos _ (by simpa using he2),
          List.find?_cons_of_pos _ (by simpa using he2)]
      · rw [List.find?_cons_of_neg _ (by simpa using he2),
          List.find?_cons_of_neg _ (by simpa using he2)]
        exact ih

/-- C8: with the rebind screen waiting for a key and a valid pending
action, any key event binds exactly that combo to the pending action,
overwriting a prior binding for the combo and leaving every other combo
unchanged; the sub-state returns to Idle and a confirmation message is
emitted.  Afterwards a keystroke in Editing mode that exactly matches a
bound combo dispatches to the bound action, bypassing every built-in
branch of handle_editing_input. -/
theorem keybind_capture_and_dispatch
    (app : AppState) (config : Config) (code : KeyCode) (mods : KeyMods)
    (i : Nat) (act : KeybindAction) (other : KeyCombo)
    (app2 : AppState) (mode : Mode) (config2 : Config) (key : KeyEvent)
    (saveOk : Bool) (tw th : Nat) (act2 : KeybindAction)
    (hw : app.keybind_state.waiting_for_key = true)
    (hp : app.keybind_state.pending_action = some i)
    (ha : KeybindAction.fromIndex i = some act)
    (ho : other ≠ (⟨code, mods⟩ : KeyCombo))
    (hb : bindsGet app2.keybind_state.custom_binds ⟨key.code, key.modifiers⟩ =
      some act2) :
    bindsGet (handleKeybindCapture app config code mods).1.keybind_state.custom_binds
      ⟨code, mods⟩ = some act ∧
    bindsGet (handleKeybindCapture app config code mods).1.keybind_state.custom_binds
      other = bindsGet app.keybind_state.custom_binds other ∧
    (handleKeybindCapture app config code mods).1.keybind_state.waiting_for_key =
      false ∧
    (handleKeybindCapture app config code mods).1.keybind_state.pending_action =
      Option.none ∧
    ((handleKeybindCapture app config code mods).2.2).isSome = true ∧
    handleEditingInput saveOk app2 mode config2 key tw th =
      performKeybindAction saveOk app2 act2 mode := by
  have hcap : handleKeybindCapture app config code mods =
      ({ app with keybind_state :=
          { app.keybind_state with
            custom_binds := bindsInsert app.keybind_state.custom_binds ⟨code, mods⟩ act
            waiting_for_key := false
            pending_action := Option.none } },
       saveKeybindToConfig config ⟨code, mods⟩ act,
       some ((( if mods.ctrl then "Ctrl+"
                else if mods.shift then "Shift+"
                else if mods.alt then "Alt+"
                else "") ++ keyCodeRepr code).trim ++ " BOUND & SAVED")) := by
    simp [handleKeybindCapture, hw, hp, ha]
  refine ⟨?_, ?_, ?_, ?_, ?_, ?_⟩
  · rw [hcap]; exact bindsGet_insert_self _ _ _
  · rw [hcap]; exact bindsGet_insert_ne _ _ _ _ ho
  · rw [hcap]
  · rw [hcap]
  · rw [hcap]; rfl
  · simp [handleEditingInput, hb]

/-- C8 witness: capturing Ctrl+M for the Menu action, and dispatching a
later Ctrl+M through the resulting binding. -/
theorem keybind_capture_and_dispatch_witness :
    bindsGet (handleKeybindCapture capApp Config.defaultConfig (KeyCode.char 'm')
        ⟨true, false, false⟩).1.keybind_state.custom_binds
      ⟨KeyCode.char 'm', ⟨true, false, false⟩⟩ = some KeybindAction.menu ∧
    bindsGet (handleKeybindCapture capApp Config.defaultConfig (KeyCode.char 'm')
        ⟨true, false, false⟩).1.keybind_state.custom_binds
      ⟨KeyCode.esc, KeyMods.none⟩ =
      bindsGet capApp.keybind_state.custom_binds ⟨KeyCode.esc, KeyMods.none⟩ ∧
    (handleKeybindCapture capApp Config.defaultConfig (KeyCode.char 'm')
        ⟨true, false, false⟩).1.keybind_state.waiting_for_key = false ∧
    (handleKeybindCapture capApp Config.defaultConfig (KeyCode.char 'm')
        ⟨true, false, false⟩).1.keybind_state.pending_action = Option.none ∧
    ((handleKeybindCapture capApp Config.defaultConfig (KeyCode.char 'm')
        ⟨true, false, false⟩).2.2).isSome = true ∧
    handleEditingInput true dispApp Mode.editing Config.defaultConfig
        ⟨KeyCode.char 'm', ⟨true, false, false⟩⟩ 80 24 =
      performKeybindAction true dispApp KeybindAction.menu Mode.editing :=
  keybind_capture_and_dispatch capApp Config.defaultConfig (KeyCode.char 'm')
    ⟨true, false, false⟩ 0 KeybindAction.menu ⟨KeyCode.esc, KeyMods.none⟩
    dispApp Mode.editing Config.defaultConfig ⟨KeyCode.char 'm', ⟨true, false, false⟩⟩
    true 80 24 KeybindAction.menu rfl rfl rfl (by decide) (by decide)

/-- C10: in Editing mode with an active selection, a plain unmodified
character key does not delete the selected text: the handler runs
exactly push_undo, insert_char at the cursor, clear_selection — so the
character lands at the cursor, the old cursor line survives inside the
new one as a subsequence, every other line is untouched, and the
selection is cleared. -/
theorem plain_char_with_selection_inserts (app : AppState) (mode : Mode)
    (config : Config) (saveOk : Bool) (tw th : Nat) (c : Char) (sel : Selection)
    (hb : bindsGet app.keybind_state.custom_binds ⟨KeyCode.char c, KeyMods.none⟩ =
      Option.none)
    (hs : app.selection = some sel)
    (hact : app.active_buffer < app.buffers.length)
    (hy : app.currentBuffer.cursor_y < app.currentBuffer.lines.length) :
    handleEditingInput saveOk app mode config ⟨KeyCode.char c, KeyMods.none⟩ tw th =
      (clearSelection (insertChar app.pushUndo c), mode) ∧
    (clearSelection (insertChar app.pushUndo c)).selection = Option.none ∧
    (clearSelection (insertChar app.pushUndo c)).currentBuffer.lines =
      app.currentBuffer.lines.set app.currentBuffer.cursor_y
        (insertAt app.currentBuffer.curLine app.currentBuffer.cursor_x c) ∧
    List.Sublist app.currentBuffer.curLine
      ((clearSelection (insertChar app.pushUndo c)).currentBuffer.curLine) := by
  have hbuf : (clearSelection (insertChar app.pushUndo c)).currentBuffer =
      app.currentBuffer.insertCharB c := by
    simp only [clearSelection, insertChar, AppState.setCurrentBuffer,
      AppState.currentBuffer]
    exact getD_set_self _ _ hact
  refine ⟨?_, rfl, ?_, ?_⟩
  · simp only [KeyMods.none] at hb
    simp [handleEditingInput, hb, hs, KeyMods.none, handleEditingRest]
  · rw [hbuf]; rfl
  · rw [hbuf]
    have hcl : (app.currentBuffer.insertCharB c).curLine =
        insertAt app.currentBuffer.curLine app.currentBuffer.cursor_x c := by
      simp only [Buffer.insertCharB, Buffer.curLine]
      exact getD_set_self _ _ hy
    rw [hcl]
    have hsub : List.Sublist
        (app.currentBuffer.curLine.take app.currentBuffer.cursor_x ++
          app.currentBuffer.curLine.drop app.currentBuffer.cursor_x)
        (app.currentBuffer.curLine.take app.currentBuffer.cursor_x ++
          c :: app.currentBuffer.curLine.drop app.currentBuffer.cursor_x) :=
      List.Sublist.append (List.Sublist.refl _) (List.sublist_cons_self c _)
    rw [List.take_append_drop] at hsub
    exact hsub

/-- C10 witness: the letter q typed over an active selection of a
two-character line. -/
theorem plain_char_with_selection_inserts_witness :
    handleEditingInput true selApp Mode.editing Config.defaultConfig
        ⟨KeyCode.char 'q', KeyMods.none⟩ 80 24 =
      (clearSelection (insertChar selApp.pushUndo 'q'), Mode.editing) ∧
    (clearSelection (insertChar selApp.pushUndo 'q')).selection = Option.none ∧
    (clearSelection (insertChar selApp.pushUndo 'q')).currentBuffer.lines =
      selApp.currentBuffer.lines.set selApp.currentBuffer.cursor_y
        (insertAt selApp.currentBuffer.curLine selApp.currentBuffer.cursor_x 'q') ∧
    List.Sublist selApp.currentBuffer.curLine
      ((clearSelection (insertChar selApp.pushUndo 'q')).currentBuffer.curLine) :=
  plain_char_with_selection_inserts selApp Mode.editing Config.defaultConfig true
    80 24 'q' ⟨0, 0, 2, 0⟩ rfl rfl (by decide) (by decide)

theorem applyEntry_f_ui_background (c : PaletteConfig) (e : ColorEntry) :
    (applyEntry c e).ui_background =
      if isWellFormedHex e.current_hex ∧ e.name = "ui_background" then e.current_hex
      else c.ui_background := by
  unfold applyEntry
  split
  · split <;> simp_all
  · simp_all

theorem foldl_f_ui_background (entries : List ColorEntry) (c : PaletteConfig) :
    (entries.foldl applyEntry c).ui_background =
      (lastWellFormed entries "ui_background").getD c.ui_background := by
  induction entries generalizing c with
  | nil => rfl
  | cons e rest ih =>
    rw [List.foldl_cons, ih]
    cases h : lastWellFormed rest "ui_background" with
    | some v => simp [lastWellFormed, h]
    | none =>
      simp only [lastWellFormed, h, applyEntry_f_ui_background]
      split <;> simp

theorem applyEntry_f_ui_foreground (c : PaletteConfig) (e : ColorEntry) :
    (applyEntry c e).ui_foreground =
      if isWellFormedHex e.current_hex ∧ e.name = "ui_foreground" then e.current_hex
      else c.ui_foreground := by
  unfold applyEntry
  split
  · split <;> simp_all
  · simp_all

theorem foldl_f_ui_foreground (entries : List ColorEntry) (c : PaletteConfig) :
    (entries.foldl applyEntry c).ui_foreground =
      (lastWellFormed entries "ui_foreground").getD c.ui_foreground := by
  induction entries generalizing c with
  | nil => rfl
  | cons e rest ih =>
    rw [List.foldl_cons, ih]
    cases h : lastWellFormed rest "ui_foreground" with
    | some v => simp [lastWellFormed, h]
    | none =>
      simp only [lastWellFormed, h, applyEntry_f_ui_foreground]
      split <;> simp

theorem applyEntry_f_ui_border (c : PaletteConfig) (e : ColorEntry) :
    (applyEntry c e).ui_border =
      if isWellFormedHex e.current_hex ∧ e.name = "ui_border" then e.current_hex
      else c.ui_border := by
  unfold applyEntry
  split
  · split <;> simp_all
  · simp_all

theorem foldl_f_ui_border (entries : List ColorEntry) (c : PaletteConfig) :
    (entries.foldl applyEntry c).ui_border =
      (lastWellFormed entries "ui_border").getD c.ui_border := by
  induction entries generalizing c with
  | nil => rfl
  | cons e rest ih =>
    rw [List.foldl_cons, ih]
    cases h : lastWellFormed rest "ui_border" with
    | some v => simp [lastWellFormed, h]
    | none =>
      simp only [lastWellFormed, h, applyEntry_f_ui_border]
      split <;> simp

theorem applyEntry_f_status_bar_bg (c : PaletteConfig) (e : ColorEntry) :
    (applyEntry c e).status_bar_bg =
      if isWellFormedHex e.current_hex ∧ e.name = "status_bar_bg" then e.current_hex
      else c.status_bar_bg := by
  unfold applyEntry
  split
  · split <;> simp_all
  · simp_all

theorem foldl_f_status_bar_bg (entries : List ColorEntry) (c : PaletteConfig) :
    (entries.foldl applyEntry c).status_bar_bg =
      (lastWellFormed entries "status_bar_bg").getD c.status_bar_bg := by
  induction entries generalizing c with
  | nil => rfl
  | cons e rest ih =>
    rw [List.foldl_cons, ih]
    cases h : lastWellFormed rest "status_bar_bg" with
    | some v => simp [lastWellFormed, h]
    | none =>
      simp only [lastWellFormed, h, applyEntry_f_status_bar_bg]
      split <;> simp

theorem applyEntry_f_status_bar_fg (c : PaletteConfig) (e : ColorEntry) :
    (applyEntry c e).status_bar_fg =
      if isWellFormedHex e.current_hex ∧ e.name = "status_bar_fg" then e.current_hex
      else c.status_bar_fg := by
  unfold applyEntry
  split
  · split <;> simp_all
  · simp_all

theorem foldl_f_status_bar_fg (entries : List ColorEntry) (c : PaletteConfig) :
    (entries.foldl applyEntry c).status_bar_fg =
      (lastWellFormed entries "status_bar_fg").getD c.status_bar_fg := by
  induction entries generalizing c with
  | nil => rfl
  | cons e rest ih =>
    rw [List.foldl_cons, ih]
    cases h : lastWellFormed rest "status_bar_fg" with
    | some v => simp [lastWellFormed, h]
    | none =>
      simp only [lastWellFormed, h, applyEntry_f_status_bar_fg]
      split <;> simp

theorem applyEntry_f_header_bg (c : PaletteConfig) (e : ColorEntry) :
    (applyEntry c e).header_bg =
      if isWellFormedHex e.current_hex ∧ e.name = "header_bg" then e.current_hex
      else c.header_bg := by
  unfold applyEntry
  split
  · split <;> simp_all
  · simp_all

theorem foldl_f_header_bg (entries : List ColorEntry) (c : PaletteConfig) :
    (entries.foldl applyEntry c).header_bg =
      (lastWellFormed entries "header_bg").getD c.header_bg := by
  induction entries generalizing c with
  | nil => rfl
  | cons e rest ih =>
    rw [List.foldl_cons, ih]
    cases h : lastWellFormed rest "header_bg" with
    | some v => simp [lastWellFormed, h]
    | none =>
      simp only [lastWellFormed, h, applyEntry_f_header_bg]
      split <;> simp

theorem applyEntry_f_header_fg (c : PaletteConfig) (e : ColorEntry) :
    (applyEntry c e).header_fg =
      if isWellFormedHex e.current_hex ∧ e.name = "header_fg" then e.current_hex
      else c.header_fg := by
  unfold applyEntry
  split
  · split <;> simp_all
  · simp_all

theorem foldl_f_header_fg (entries : List ColorEntry) (c : PaletteConfig) :
    (entries.foldl applyEntry c).header_fg =
      (lastWellFormed entries "header_fg").getD c.header_fg := by
  induction entries generalizing c with
  | nil => rfl
  | cons e rest ih =>
    rw [List.foldl_cons, ih]
    cases h : lastWellFormed rest "header_fg" with
    | some v => simp [lastWellFormed, h]
    | none =>
      simp only [lastWellFormed, h, applyEntry_f_header_fg]
      split <;> simp

theorem applyEntry_f_editor_background (c : PaletteConfig) (e : ColorEntry) :
    (applyEntry c e).editor_background =
      if isWellFormedHex e.current_hex ∧ e.name = "editor_background" then e.current_hex
      else c.editor_background := by
  unfold applyEntry
  split
  · split <;> simp_all
  · simp_all

theorem foldl_f_editor_background (entries : List ColorEntry) (c : PaletteConfig) :
    (entries.foldl applyEntry c).editor_background =
      (lastWellFormed entries "editor_background").getD c.editor_background := by
  induction entries generalizing c with
  | nil => rfl
  | cons e rest ih =>
    rw [List.foldl_cons, ih]
    cases h : lastWellFormed rest "editor_background" with
    | some v => simp [lastWellFormed, h]
    | none =>
      simp only [lastWellFormed, h, applyEntry_f_editor_background]
      split <;> simp

theorem applyEntry_f_editor_foreground (c : PaletteConfig) (e : ColorEntry) :
    (applyEntry c e).editor_foreground =
      if isWellFormedHex e.current_hex ∧ e.name = "editor_foreground" then e.current_hex
      else c.editor_foreground := by
  unfold applyEntry
  split
  · split <;> simp_all
  · simp_all

theorem foldl_f_editor_foreground (entries : List ColorEntry) (c : PaletteConfig) :
    (entries.foldl applyEntry c).editor_foreground =
      (lastWellFormed entries "editor_foreground").getD c.editor_foreground := by
  induction entries generalizing c with
  | nil => rfl
  | cons e rest ih =>
    rw [List.foldl_cons, ih]
    cases h : lastWellFormed rest "editor_foreground" with
    | some v => simp [lastWellFormed, h]
    | none =>
      simp only [lastWellFormed, h, applyEntry_f_editor_foreground]
      split <;> simp

theorem applyEntry_f_line_number_bg (c : PaletteConfig) (e : ColorEntry) :
    (applyEntry c e).line_number_bg =
      if isWellFormedHex e.current_hex ∧ e.name = "line_number_bg" then e.current_hex
      else c.line_number_bg := by
  unfold applyEntry
  split
  · split <;> simp_all
  · simp_all

theorem foldl_f_line_number_bg (entries : List ColorEntry) (c : PaletteConfig) :
    (entries.foldl applyEntry c).line_number_bg =
      (lastWellFormed entries "line_number_bg").getD c.line_number_bg := by
  induction entries generalizing c with
  | nil => rfl
  | cons e rest ih =>
    rw [List.foldl_cons, ih]
    cases h : lastWellFormed rest "line_number_bg" with
    | some v => simp [lastWellFormed, h]
    | none =>
      simp only [lastWellFormed, h, applyEntry_f_line_number_bg]
      split <;> simp

theorem applyEntry_f_line_number_fg (c : PaletteConfig) (e : ColorEntry) :
    (applyEntry c e).line_number_fg =
      if isWellFormedHex e.current_hex ∧ e.name = "line_number_fg" then e.current_hex
      else c.line_number_fg := by
  unfold applyEntry
  split
  · split <;> simp_all
  · simp_all

theorem foldl_f_line_number_fg (entries : List ColorEntry) (c : PaletteConfig) :
    (entries.foldl applyEntry c).line_number_fg =
      (lastWellFormed entries "line_number_fg").getD c.line_number_fg := by
  induction entries generalizing c with
  | nil => rfl
  | cons e rest ih =>
    rw [List.foldl_cons, ih]
    cases h : lastWellFormed rest "line_number_fg" with
    | some v => simp [lastWellFormed, h]
    | none =>
      simp only [lastWellFormed, h, applyEntry_f_line_number_fg]
      split <;> simp

theorem applyEntry_f_cursor (c : PaletteConfig) (e : ColorEntry) :
    (applyEntry c e).cursor =
      if isWellFormedHex e.current_hex ∧ e.name = "cursor" then e.current_hex
      else c.cursor := by
  unfold applyEntry
  split
  · split <;> simp_all
  · simp_all

theorem foldl_f_cursor (entries : List ColorEntry) (c : PaletteConfig) :
    (entries.foldl applyEntry c).cursor =
      (lastWellFormed entries "cursor").getD c.cursor := by
  induction entries generalizing c with
  | nil => rfl
  | cons e rest ih =>
    rw [List.foldl_cons, ih]
    cases h : lastWellFormed rest "cursor" with
    | some v => simp [lastWellFormed, h]
    | none =>
      simp only [lastWellFormed, h, applyEntry_f_cursor]
      split <;> simp

theorem applyEntry_f_selection_bg (c : PaletteConfig) (e : ColorEntry) :
    (applyEntry c e).selection_bg =
      if isWellFormedHex e.current_hex ∧ e.name = "selection_bg" then e.current_hex
      else c.selection_bg := by
  unfold applyEntry
  split
  · split <;> simp_all
  · simp_all

theorem foldl_f_selection_bg (entries : List ColorEntry) (c : PaletteConfig) :
    (entries.foldl applyEntry c).selection_bg =
      (lastWellFormed entries "selection_bg").getD c.selection_bg := by
  induction entries generalizing c with
  | nil => rfl
  | cons e rest ih =>
    rw [List.foldl_cons, ih]
    cases h : lastWellFormed rest "selection_bg" with
    | some v => simp [lastWellFormed, h]
    | none =>
      simp only [lastWellFormed, h, applyEntry_f_selection_bg]
      split <;> simp

theorem applyEntry_f_selection_fg (c : PaletteConfig) (e : ColorEntry) :
    (applyEntry c e).selection_fg =
      if isWellFormedHex e.current_hex ∧ e.name = "selection_fg" then e.current_hex
      else c.selection_fg := by
  unfold applyEntry
  split
  · split <;> simp_all
  · simp_all

theorem foldl_f_selection_fg (entries : List ColorEntry) (c : PaletteConfig) :
    (entries.foldl applyEntry c).selection_fg =
      (lastWellFormed entries "selection_fg").getD c.selection_fg := by
  induction entries generalizing c with
  | nil => rfl
  | cons e rest ih =>
    rw [List.foldl_cons, ih]
    cases h : lastWellFormed rest "selection_fg" with
    | some v => simp [lastWellFormed, h]
    | none =>
      simp only [lastWellFormed, h, applyEntry_f_selection_fg]
      split <;> simp

theorem applyEntry_f_stx_keyword (c : PaletteConfig) (e : ColorEntry) :
    (applyEntry c e).stx_keyword =
      if isWellFormedHex e.current_hex ∧ e.name = "syntax_keyword" then e.current_hex
      else c.stx_keyword := by
  unfold applyEntry
  split
  · split <;> simp_all
  · simp_all

theorem foldl_f_stx_keyword (entries : List ColorEntry) (c : PaletteConfig) :
    (entries.foldl applyEntry c).stx_keyword =
      (lastWellFormed entries "syntax_keyword").getD c.stx_keyword := by
  induction entries generalizing c with
  | nil => rfl
  | cons e rest ih =>
    rw [List.foldl_cons, ih]
    cases h : lastWellFormed rest "syntax_keyword" with
    | some v => simp [lastWellFormed, h]
    | none =>
      simp only [lastWellFormed, h, applyEntry_f_stx_keyword]
      split <;> simp

theorem applyEntry_f_stx_string (c : PaletteConfig) (e : ColorEntry) :
    (applyEntry c e).stx_string =
      if isWellFormedHex e.current_hex ∧ e.name = "syntax_string" then e.current_hex
      else c.stx_string := by
  unfold applyEntry
  split
  · split <;> simp_all
  · simp_all

theorem foldl_f_stx_string (entries : List ColorEntry) (c : PaletteConfig) :
    (entries.foldl applyEntry c).stx_string =
      (lastWellFormed entries "syntax_string").getD c.stx_string := by
  induction entries generalizing c with
  | nil => rfl
  | cons e rest ih =>
    rw [List.foldl_cons, ih]
    cases h : lastWellFormed rest "syntax_string" with
    | some v => simp [lastWellFormed, h]
    | none =>
      simp only [lastWellFormed, h, applyEntry_f_stx_string]
      split <;> simp

theorem applyEntry_f_stx_comment (c : PaletteConfig) (e : ColorEntry) :
    (applyEntry c e).stx_comment =
      if isWellFormedHex e.current_hex ∧ e.name = "syntax_comment" then e.current_hex
      else c.stx_comment := by
  unfold applyEntry
  split
  · split <;> simp_all
  · simp_all

theorem foldl_f_stx_comment (entries : List ColorEntry) (c : PaletteConfig) :
    (entries.foldl applyEntry c).stx_comment =
      (lastWellFormed entries "syntax_comment").getD c.stx_comment := by
  induction entries generalizing c with
  | nil => rfl
  | cons e rest ih =>
    rw [List.foldl_cons, ih]
    cases h : lastWellFormed rest "syntax_comment" with
    | some v => simp [lastWellFormed, h]
    | none =>
      simp only [lastWellFormed, h, applyEntry_f_stx_comment]
      split <;> simp

theorem applyEntry_f_stx_function (c : PaletteConfig) (e : ColorEntry) :
    (applyEntry c e).stx_function =
      if isWellFormedHex e.current_hex ∧ e.name = "syntax_function" then e.current_hex
      else c.stx_function := by
  unfold applyEntry
  split
  · split <;> simp_all
  · simp_all

theorem foldl_f_stx_function (entries : List ColorEntry) (c : PaletteConfig) :
    (entries.foldl applyEntry c).stx_function =
      (lastWellFormed entries "syntax_function").getD c.stx_function := by
  induction entries generalizing c with
  | nil => rfl
  | cons e rest ih =>
    rw [List.foldl_cons, ih]
    cases h : lastWellFormed rest "syntax_function" with
    | some v => simp [lastWellFormed, h]
    | none =>
      simp only [lastWellFormed, h, applyEntry_f_stx_function]
      split <;> simp

theorem applyEntry_f_stx_type (c : PaletteConfig) (e : ColorEntry) :
    (applyEntry c e).stx_type =
      if isWellFormedHex e.current_hex ∧ e.name = "syntax_type" then e.current_hex
      else c.stx_type := by
  unfold applyEntry
  split
  · split <;> simp_all
  · simp_all

theorem foldl_f_stx_type (entries : List ColorEntry) (c : PaletteConfig) :
    (entries.foldl applyEntry c).stx_type =
      (lastWellFormed entries "syntax_type").getD c.stx_type := by
  induction entries generalizing c with
  | nil => rfl
  | cons e rest ih =>
    rw [List.foldl_cons, ih]
    cases h : lastWellFormed rest "syntax_type" with
    | some v => simp [lastWellFormed, h]
    | none =>
      simp only [lastWellFormed, h, applyEntry_f_stx_type]
      split <;> simp

theorem applyEntry_f_stx_constant (c : PaletteConfig) (e : ColorEntry) :
    (applyEntry c e).stx_constant =
      if isWellFormedHex e.current_hex ∧ e.name = "syntax_constant" then e.current_hex
      else c.stx_constant := by
  unfold applyEntry
  split
  · split <;> simp_all
  · simp_all

theorem foldl_f_stx_constant (entries : List ColorEntry) (c : PaletteConfig) :
    (entries.foldl applyEntry c).stx_constant =
      (lastWellFormed entries "syntax_constant").getD c.stx_constant := by
  induction entries generalizing c with
  | nil => rfl
  | cons e rest ih =>
    rw [List.foldl_cons, ih]
    cases h : lastWellFormed rest "syntax_constant" with
    | some v => simp [lastWellFormed, h]
    | none =>
      simp only [lastWellFormed, h, applyEntry_f_stx_constant]
      split <;> simp

theorem applyEntry_f_accent_primary (c : PaletteConfig) (e : ColorEntry) :
    (applyEntry c e).accent_primary =
      if isWellFormedHex e.current_hex ∧ e.name = "accent_primary" then e.current_hex
      else c.accent_primary := by
  unfold applyEntry
  split
  · split <;> simp_all
  · simp_all

theorem foldl_f_accent_primary (entries : List ColorEntry) (c : PaletteConfig) :
    (entries.foldl applyEntry c).accent_primary =
      (lastWellFormed entries "accent_primary").getD c.accent_primary := by
  induction entries generalizing c with
  | nil => rfl
  | cons e rest ih =>
    rw [List.foldl_cons, ih]
    cases h : lastWellFormed rest "accent_primary" with
    | some v => simp [lastWellFormed, h]
    | none =>
      simp only [lastWellFormed, h, applyEntry_f_accent_primary]
      split <;> simp

theorem applyEntry_f_accent_secondary (c : PaletteConfig) (e : ColorEntry) :
    (applyEntry c e).accent_secondary =
      if isWellFormedHex e.current_hex ∧ e.name = "accent_secondary" then e.current_hex
      else c.accent_secondary := by
  unfold applyEntry
  split
  · split <;> simp_all
  · simp_all

theorem foldl_f_accent_secondary (entries : List ColorEntry) (c : PaletteConfig) :
    (entries.foldl applyEntry c).accent_secondary =
      (lastWellFormed entries "accent_secondary").getD c.accent_secondary := by
  induction entries generalizing c with
  | nil => rfl
  | cons e rest ih =>
    rw [List.foldl_cons, ih]
    cases h : lastWellFormed rest "accent_secondary" with
    | some v => simp [lastWellFormed, h]
    | none =>
      simp only [lastWellFormed, h, applyEntry_f_accent_secondary]
      split <;> simp

theorem applyEntry_f_match_highlight (c : PaletteConfig) (e : ColorEntry) :
    (applyEntry c e).match_highlight =
      if isWellFormedHex e.current_hex ∧ e.name = "match_highlight" then e.current_hex
      else c.match_highlight := by
  unfold applyEntry
  split
  · split <;> simp_all
  · simp_all

theorem foldl_f_match_highlight (entries : List ColorEntry) (c : PaletteConfig) :
    (entries.foldl applyEntry c).match_highlight =
      (lastWellFormed entries "match_highlight").getD c.match_highlight := by
  induction entries generalizing c with
  | nil => rfl
  | cons e rest ih =>
    rw [List.foldl_cons, ih]
    cases h : lastWellFormed rest "match_highlight" with
    | some v => simp [lastWellFormed, h]
    | none =>
      simp only [lastWellFormed, h, applyEntry_f_match_highlight]
      split <;> simp

theorem applyEntry_f_error (c : PaletteConfig) (e : ColorEntry) :
    (applyEntry c e).error =
      if isWellFormedHex e.current_hex ∧ e.name = "error" then e.current_hex
      else c.error := by
  unfold applyEntry
  split
  · split <;> simp_all
  · simp_all

theorem foldl_f_error (entries : List ColorEntry) (c : PaletteConfig) :
    (entries.foldl applyEntry c).error =
      (lastWellFormed entries "error").getD c.error := by
  induction entries generalizing c with
  | nil => rfl
  | cons e rest ih =>
    rw [List.foldl_cons, ih]
    cases h : lastWellFormed rest "error" with
    | some v => simp [lastWellFormed, h]
    | none =>
      simp only [lastWellFormed, h, applyEntry_f_error]
      split <;> simp

theorem applyEntry_f_warning (c : PaletteConfig) (e : ColorEntry) :
    (applyEntry c e).warning =
      if isWellFormedHex e.current_hex ∧ e.name = "warning" then e.current_hex
      else c.warning := by
  unfold applyEntry
  split
  · split <;> simp_all
  · simp_all

theorem foldl_f_warning (entries : List ColorEntry) (c : PaletteConfig) :
    (entries.foldl applyEntry c).warning =
      (lastWellFormed entries "warning").getD c.warning := by
  induction entries generalizing c with
  | nil => rfl
  | cons e rest ih =>
    rw [List.foldl_cons, ih]
    cases h : lastWellFormed rest "warning" with
    | some v => simp [lastWellFormed, h]
    | none =>
      simp only [lastWellFormed, h, applyEntry_f_warning]
      split <;> simp

/-- C4 amended: Ctrl+S parses the entry list over the BUILT-IN DEFAULT
configuration, not the pre-edit palette: each channel of the applied
palette comes from the last well-formed (7-character, hash-prefixed)
entry bearing the channel name, and a channel all of whose entries are
skipped as malformed is reset to its default value rather than kept at
its pre-edit value. -/
theorem color_save_parse_characterization (entries : List ColorEntry) :
    parsePaletteFromEntries entries =
      Except.ok (Palette.fromConfig
        (entries.foldl applyEntry PaletteConfig.defaultConfig)) ∧
    (entries.foldl applyEntry PaletteConfig.defaultConfig).ui_background =
      (lastWellFormed entries "ui_background").getD PaletteConfig.defaultConfig.ui_background ∧
    (entries.foldl applyEntry PaletteConfig.defaultConfig).ui_foreground =
      (lastWellFormed entries "ui_foreground").getD PaletteConfig.defaultConfig.ui_foreground ∧
    (entries.foldl applyEntry PaletteConfig.defaultConfig).ui_border =
      (lastWellFormed entries "ui_border").getD PaletteConfig.defaultConfig.ui_border ∧
    (entries.foldl applyEntry PaletteConfig.defaultConfig).status_bar_bg =
      (lastWellFormed entries "status_bar_bg").getD PaletteConfig.defaultConfig.status_bar_bg ∧
    (entries.foldl applyEntry PaletteConfig.defaultConfig).status_bar_fg =
      (lastWellFormed entries "status_bar_fg").getD PaletteConfig.defaultConfig.status_bar_fg ∧
    (entries.foldl applyEntry PaletteConfig.defaultConfig).header_bg =
      (lastWellFormed entries "header_bg").getD PaletteConfig.defaultConfig.header_bg ∧
    (entries.foldl applyEntry PaletteConfig.defaultConfig).header_fg =
      (lastWellFormed entries "header_fg").getD PaletteConfig.defaultConfig.header_fg ∧
    (entries.foldl applyEntry PaletteConfig.defaultConfig).editor_background =
      (lastWellFormed entries "editor_background").getD PaletteConfig.defaultConfig.editor_background ∧
    (entries.foldl applyEntry PaletteConfig.defaultConfig).editor_foreground =
      (lastWellFormed entries "editor_foreground").getD PaletteConfig.defaultConfig.editor_foreground ∧
    (entries.foldl applyEntry PaletteConfig.defaultConfig).line_number_bg =
      (lastWellFormed entries "line_number_bg").getD PaletteConfig.defaultConfig.line_number_bg ∧
    (entries.foldl applyEntry PaletteConfig.defaultConfig).line_number_fg =
      (lastWellFormed entries "line_number_fg").getD PaletteConfig.defaultConfig.line_number_fg ∧
    (entries.foldl applyEntry PaletteConfig.defaultConfig).cursor =
      (lastWellFormed entries "cursor").getD PaletteConfig.defaultConfig.cursor ∧
    (entries.foldl applyEntry PaletteConfig.defaultConfig).selection_bg =
      (lastWellFormed entries "selection_bg").getD PaletteConfig.defaultConfig.selection_bg ∧
    (entries.foldl applyEntry PaletteConfig.defaultConfig).selection_fg =
      (lastWellFormed entries "selection_fg").getD PaletteConfig.defaultConfig.selection_fg ∧
    (entries.foldl applyEntry PaletteConfig.defaultConfig).stx_keyword =
      (lastWellFormed entries "syntax_keyword").getD PaletteConfig.defaultConfig.stx_keyword ∧
    (entries.foldl applyEntry PaletteConfig.defaultConfig).stx_string =
      (lastWellFormed entries "syntax_string").getD PaletteConfig.defaultConfig.stx_string ∧
    (entries.foldl applyEntry PaletteConfig.defaultConfig).stx_comment =
      (lastWellFormed entries "syntax_comment").getD PaletteConfig.defaultConfig.stx_comment ∧
    (entries.foldl applyEntry PaletteConfig.defaultConfig).stx_function =
      (lastWellFormed entries "syntax_function").getD PaletteConfig.defaultConfig.stx_function ∧
    (entries.foldl applyEntry PaletteConfig.defaultConfig).stx_type =
      (lastWellFormed entries "syntax_type").getD PaletteConfig.defaultConfig.stx_type ∧
    (entries.foldl applyEntry PaletteConfig.defaultConfig).stx_constant =
      (lastWellFormed entries "syntax_constant").getD PaletteConfig.defaultConfig.stx_constant ∧
    (entries.foldl applyEntry PaletteConfig.defaultConfig).accent_primary =
      (lastWellFormed entries "accent_primary").getD PaletteConfig.defaultConfig.accent_primary ∧
    (entries.foldl applyEntry PaletteConfig.defaultConfig).accent_secondary =
      (lastWellFormed entries "accent_secondary").getD PaletteConfig.defaultConfig.accent_secondary ∧
    (entries.foldl applyEntry PaletteConfig.defaultConfig).match_highlight =
      (lastWellFormed entries "match_highlight").getD PaletteConfig.defaultConfig.match_highlight ∧
    (entries.foldl applyEntry PaletteConfig.defaultConfig).error =
      (lastWellFormed entries "error").getD PaletteConfig.defaultConfig.error ∧
    (entries.foldl applyEntry PaletteConfig.defaultConfig).warning =
      (lastWellFormed entries "warning").getD PaletteConfig.defaultConfig.warning :=
  ⟨rfl,
   foldl_f_ui_background entries PaletteConfig.defaultConfig,
   foldl_f_ui_foreground entries PaletteConfig.defaultConfig,
   foldl_f_ui_border entries PaletteConfig.defaultConfig,
   foldl_f_status_bar_bg entries PaletteConfig.defaultConfig,
   foldl_f_status_bar_fg entries PaletteConfig.defaultConfig,
   foldl_f_header_bg entries PaletteConfig.defaultConfig,
   foldl_f_header_fg entries PaletteConfig.defaultConfig,
   foldl_f_editor_background entries PaletteConfig.defaultConfig,
   foldl_f_editor_foreground entries PaletteConfig.defaultConfig,
   foldl_f_line_number_bg entries PaletteConfig.defaultConfig,
   foldl_f_line_number_fg entries PaletteConfig.defaultConfig,
   foldl_f_cursor entries PaletteConfig.defaultConfig,
   foldl_f_selection_bg entries PaletteConfig.defaultConfig,
   foldl_f_selection_fg entries PaletteConfig.defaultConfig,
   foldl_f_stx_keyword entries PaletteConfig.defaultConfig,
   foldl_f_stx_string entries PaletteConfig.defaultConfig,
   foldl_f_stx_comment entries PaletteConfig.defaultConfig,
   foldl_f_stx_function entries PaletteConfig.defaultConfig,
   foldl_f_stx_type entries PaletteConfig.defaultConfig,
   foldl_f_stx_constant entries PaletteConfig.defaultConfig,
   foldl_f_accent_primary entries PaletteConfig.defaultConfig,
   foldl_f_accent_secondary entries PaletteConfig.defaultConfig,
   foldl_f_match_highlight entries PaletteConfig.defaultConfig,
   foldl_f_error entries PaletteConfig.defaultConfig,
   foldl_f_warning entries PaletteConfig.defaultConfig⟩

/-- C4 counterexample: the palette had ui_background applied as the
hex value ABCDEF; the color editor entry for it is edited down to the
malformed #AB and Ctrl+S is pressed.  The entry is skipped, but the
applied palette channel becomes the built-in default 1E1E1E, not the
pre-edit ABCDEF: the channel does not remain unchanged. -/
theorem malformed_entry_resets_channel_to_default :
    isWellFormedHex ("#AB".toList) = false ∧
    (colorEditorCtrlS editedApp Config.defaultConfig).1.current_palette.ui_background =
      hexToColor ("#1E1E1E".toList) ∧
    editedPalette.ui_background = hexToColor ("#ABCDEF".toList) ∧
    (colorEditorCtrlS editedApp Config.defaultConfig).1.current_palette.ui_background ≠
      editedPalette.ui_background := by
  refine ⟨rfl, rfl, rfl, ?_⟩
  decide


end Fero
